import Mathlib

/-!
# Verification of the roguelike simulation core (`src/main.rs`)

Shallow embedding of the parts of the program that the specification's
claims are about: the entity/combat model (`Object`, `Fighter`, damage,
death callbacks, healing, effective stats), the AI state machine
(`Ai`, confusion), the level-up check, the map generator's room loop,
the inventory/equipment manager, and the save/load round trip.

Conventions of the embedding:
* Rust `i32` is modelled as `Int` (no claim exercises 32-bit overflow),
  `usize` indices as `Nat`.
* Mutation is explicit state passing: a Rust method `&mut self` becomes
  a Lean function returning the updated value.
* The message log (`game.log.add(...)`) is modelled as list append.
* Randomness (`rand::thread_rng`) is modelled by explicit seed inputs.
* Fallible operations return `Option`/`Except`; a Rust `panic!`
  (`unwrap`, out-of-bounds indexing) is the error branch of a total
  function, and is noted where it occurs.
-/

/-- RGB colour triple (`tcod::colors::Color`).  The particular numeric
values of the palette constants below stand in for tcod's palette; no
theorem depends on them, only on the constants being definite values. -/
structure Color where
  r : Nat
  g : Nat
  b : Nat
deriving DecidableEq, Repr

namespace colors

def RED : Color := ⟨255, 0, 0⟩

def DARK_RED : Color := ⟨191, 0, 0⟩

def GREEN : Color := ⟨0, 255, 0⟩

def LIGHT_GREEN : Color := ⟨63, 255, 63⟩

def LIGHT_YELLOW : Color := ⟨255, 255, 63⟩

def YELLOW : Color := ⟨255, 255, 0⟩

def LIGHT_CYAN : Color := ⟨63, 255, 255⟩

def WHITE : Color := ⟨255, 255, 255⟩

end colors

/-- `const CONFUSE_NUM_TURNS: i32 = 10;` -/
def CONFUSE_NUM_TURNS : Int := 10

/-- `const LEVEL_UP_BASE: i32 = 200;` -/
def LEVEL_UP_BASE : Int := 200

/-- `const LEVEL_UP_FACTOR: i32 = 150;` -/
def LEVEL_UP_FACTOR : Int := 150

/-- `const MAP_WIDTH: i32 = 80;` -/
def MAP_WIDTH : Int := 80

/-- `const MAP_HEIGHT: i32 = 43;` -/
def MAP_HEIGHT : Int := 43

/-- `const ROOM_MAX_SIZE: i32 = 10;` -/
def ROOM_MAX_SIZE : Int := 10

/-- `const ROOM_MIN_SIZE: i32 = 6;` -/
def ROOM_MIN_SIZE : Int := 6

/-- `const MAX_ROOMS: i32 = 30;` -/
def MAX_ROOMS : Nat := 30

/-- `enum DeathCallback { Player, Monster }` -/
inductive DeathCallback where
  | Player
  | Monster
deriving DecidableEq, Repr

/-- `struct Fighter` — combat-related properties (lines 68-76). -/
structure Fighter where
  base_max_hp : Int
  hp : Int
  base_defense : Int
  base_power : Int
  on_death : DeathCallback
  xp : Int
deriving DecidableEq, Repr

/-- `enum Ai { Basic, Confused { previous_ai: Box<Ai>, num_turns: i32 } }`
(lines 129-133).  The `Box` indirection disappears in Lean. -/
inductive Ai where
  | Basic
  | Confused (previous_ai : Ai) (num_turns : Int)
deriving DecidableEq, Repr

/-- `enum Slot { LeftHand, RightHand, Head }` -/
inductive Slot where
  | LeftHand
  | RightHand
  | Head
deriving DecidableEq, Repr

instance : Fintype Slot where
  elems := {Slot.LeftHand, Slot.RightHand, Slot.Head}
  complete := by intro x; cases x <;> decide

/-- `struct Equipment` — an object that can be equipped to yield bonuses
(lines 173-180). -/
structure Equipment where
  slot : Slot
  equipped : Bool
  power_bonus : Int
  defense_bonus : Int
  max_hp_bonus : Int
deriving DecidableEq, Repr

/-- `enum Item { Heal, Lightning, Confuse, Fireball, Sword, Shield }` -/
inductive Item where
  | Heal
  | Lightning
  | Confuse
  | Fireball
  | Sword
  | Shield
deriving DecidableEq, Repr

/-- `struct Tile { blocked, block_sight, explored }` (lines 217-222). -/
structure Tile where
  blocked : Bool
  block_sight : Bool
  explored : Bool
deriving DecidableEq, Repr

/-- `Tile::empty()` -/
def Tile.empty : Tile := { blocked := false, block_sight := false, explored := false }

/-- `Tile.wall()` -/
def Tile.wall : Tile := { blocked := true, block_sight := true, explored := false }

/-- `type Map = Vec<Vec<Tile>>;` — column-major: `map[x][y]`. -/
abbrev Map := List (List Tile)

/-- `type Messages = Vec<(String, Color)>;` -/
abbrev Messages := List (String × Color)

/-- `MessageLog::add` — pushes a message on the log (lines 94-98). -/
def addMsg (log : Messages) (message : String) (color : Color) : Messages :=
  log ++ [(message, color)]

/-- `struct Object` — the single polymorphic actor/item record
(lines 236-251). -/
structure Object where
  x : Int
  y : Int
  char : Char
  color : Color
  name : String
  blocks : Bool
  alive : Bool
  fighter : Option Fighter
  ai : Option Ai
  item : Option Item
  always_visible : Bool
  level : Int
  equipment : Option Equipment
deriving DecidableEq, Repr

/-- `struct Game { map, log, inventory, dungeon_level }` (lines 160-166). -/
structure Game where
  map : Map
  log : Messages
  inventory : List Object
  dungeon_level : Nat
deriving DecidableEq, Repr

/-- `fn player_death(player, game)` (lines 111-116): log "You died!" and
turn the player into a corpse glyph.  The fighter record is kept. -/
def player_death (player : Object) (game : Game) : Object × Game :=
  let game := { game with log := addMsg game.log "You died!" colors.RED }
  ({ player with char := '%', color := colors.DARK_RED }, game)

/-- `fn monster_death(monster, game)` (lines 118-127): log the kill and the
xp award, turn into a non-blocking corpse, strip `fighter` and `ai`, rename.
The source reads the xp via `monster.fighter.unwrap().xp`; the callback is
only ever invoked by `take_damage` with the fighter present, so the default
`0` of the total getter below is never used. -/
def monster_death (monster : Object) (game : Game) : Object × Game :=
  let xp := (monster.fighter.map Fighter.xp).getD 0
  let game := { game with
    log := addMsg game.log
      (monster.name ++ " is dead! You gain " ++ toString xp ++ " experience points.")
      colors.RED }
  ({ monster with
      char := '%'
      color := colors.DARK_RED
      blocks := false
      fighter := none
      ai := none
      name := "remains of " ++ monster.name }, game)

/-- `DeathCallback::callback` (lines 100-109): dispatch to the death
behaviour named by the tag. -/
def DeathCallback.callback : DeathCallback → Object → Game → Object × Game
  | .Player, object, game => player_death object game
  | .Monster, object, game => monster_death object game

/-- `Object::take_damage` (lines 298-312).  Returns the updated object, the
updated game, and `Some(xp)` when the blow was fatal (the xp is read from
the copy of the fighter taken before the death callback runs, exactly as
the second `if let Some(fighter) = self.fighter` does in the source). -/
def Object.take_damage (o : Object) (damage : Int) (game : Game) :
    Object × Game × Option Int :=
  -- apply damage if possible
  let o := match o.fighter with
    | some fighter =>
        if damage > 0 then { o with fighter := some { fighter with hp := fighter.hp - damage } }
        else o
    | none => o
  -- check for death, call the death function and return xp
  match o.fighter with
  | some fighter =>
      if fighter.hp ≤ 0 then
        let o := { o with alive := false }
        let (o, game) := fighter.on_death.callback o game
        (o, game, some fighter.xp)
      else (o, game, none)
  | none => (o, game, none)

/-- A dead player, as left behind by `player_death`: hp at 0, `alive` false,
corpse glyph — but with the `fighter` record still present, which is exactly
what `player_death` leaves in place. -/
def deadPlayer : Object :=
  { x := 1, y := 1, char := '%', color := colors.DARK_RED, name := "player",
    blocks := true, alive := false,
    fighter := some { base_max_hp := 100, hp := 0, base_defense := 1,
                      base_power := 2, on_death := .Player, xp := 0 },
    ai := none, item := none, always_visible := false, level := 1,
    equipment := none }

/-- An empty game state used as a concrete input. -/
def game0 : Game := { map := [], log := [], inventory := [], dungeon_level := 1 }

/-- `take_damage` on an object without a `fighter` changes nothing and
reports no kill: both guards of the source are `if let Some(fighter)`. -/
theorem take_damage_of_no_fighter (o : Object) (d : Int) (g : Game) (h : o.fighter = none) :
    o.take_damage d g = (o, g, none) := by
  simp [Object.take_damage, h]

/-- C1 counterexample: the claim fails for the player.  `player_death`
keeps the `fighter` record, so calling `take_damage 5` on the already-dead
player (hp 0, `alive = false`, death callback already fired) lowers its hp
further (to −5) and runs the death callback again (one more "You died!"
message on the log). -/
theorem C1_dead_player_damaged_again :
    ((deadPlayer.take_damage 5 game0).1.fighter.map Fighter.hp = some (-5)) ∧
    (deadPlayer.take_damage 5 game0).2.1.log = [("You died!", colors.RED)] := by
  constructor <;> rfl

/-- C1 (amended): death is triggered exactly once for monsters.  If a
`take_damage` call is fatal to an object whose death behaviour is
`Monster`, the callback strips the `fighter`, after which every further
`take_damage` call, with any damage amount and any game state, returns the
object and the game unchanged and reports no kill.  (For the player the
fighter is retained, so a further call would lower hp and re-run the
cosmetic player-death callback — see the counterexample — though the game
loop never damages the dead player.) -/
theorem C1_monster_death_idempotent (o : Object) (game : Game) (d d' : Int) (f : Fighter)
    (hf : o.fighter = some f) (hm : f.on_death = .Monster)
    (hdie : (if d > 0 then f.hp - d else f.hp) ≤ 0) :
    ((o.take_damage d game).1.fighter = none) ∧
    (∀ g2 : Game, (o.take_damage d game).1.take_damage d' g2 =
      ((o.take_damage d game).1, g2, none)) := by
  have h1 : (o.take_damage d game).1.fighter = none := by
    by_cases hd : d > 0
    · have hle : f.hp - d ≤ 0 := by simpa [if_pos hd] using hdie
      simp [Object.take_damage, hf, hd, hle, DeathCallback.callback, hm, monster_death]
    · have hle : f.hp ≤ 0 := by simpa [if_neg hd] using hdie
      simp [Object.take_damage, hf, hd, hle, DeathCallback.callback, hm, monster_death]
  exact ⟨h1, fun g2 => take_damage_of_no_fighter _ _ _ h1⟩

/-- Witness for `C1_monster_death_idempotent` at a concrete orc. -/
theorem C1_monster_death_idempotent_witness :
    let orc : Object :=
      { x := 2, y := 2, char := 'o', color := colors.GREEN, name := "orc",
        blocks := true, alive := true,
        fighter := some { base_max_hp := 20, hp := 3, base_defense := 0,
                          base_power := 4, on_death := .Monster, xp := 35 },
        ai := some .Basic, item := none, always_visible := false, level := 1,
        equipment := none }
    ((orc.take_damage 5 game0).1.fighter = none) ∧
    (∀ g2 : Game, (orc.take_damage 5 game0).1.take_damage 7 g2 =
      ((orc.take_damage 5 game0).1, g2, none)) := by
  intro orc
  exact C1_monster_death_idempotent orc game0 5 7 _ rfl rfl (by norm_num)

/-- `Object::get_all_equipped` (lines 400-412): all equipped equipment
records.  Only the object named `"player"` looks bonuses up in the game's
inventory; every other object gets `vec![]`.  The source filters for
equipped items and then unwraps; `filterMap` of the equipped test fuses the
two steps with the same result. -/
def Object.get_all_equipped (o : Object) (game : Game) : List Equipment :=
  if o.name = "player" then
    game.inventory.filterMap (fun item =>
      match item.equipment with
      | some e => if e.equipped then some e else none
      | none => none)
  else []

/-- `Object::power` (lines 381-386): base power plus the fold of the
equipped `power_bonus`es. -/
def Object.power (o : Object) (game : Game) : Int :=
  let base_power := (o.fighter.map Fighter.base_power).getD 0
  let bonus := (o.get_all_equipped game).foldl (fun sum e => sum + e.power_bonus) 0
  base_power + bonus

/-- `Object::defense` (lines 388-392). -/
def Object.defense (o : Object) (game : Game) : Int :=
  let base_defense := (o.fighter.map Fighter.base_defense).getD 0
  let bonus := (o.get_all_equipped game).foldl (fun sum e => sum + e.defense_bonus) 0
  base_defense + bonus

/-- `Object::max_hp` (lines 394-398). -/
def Object.max_hp (o : Object) (game : Game) : Int :=
  let base_max_hp := (o.fighter.map Fighter.base_max_hp).getD 0
  let bonus := (o.get_all_equipped game).foldl (fun sum e => sum + e.max_hp_bonus) 0
  base_max_hp + bonus

/-- `Object::heal` (lines 331-339): add `amount` to hp, then clamp to the
effective maximum computed before the addition.  The game is only read
(`&Game`), never written, so healing cannot touch the log or any other
entity. -/
def Object.heal (o : Object) (amount : Int) (game : Game) : Object :=
  let max_hp := o.max_hp game
  match o.fighter with
  | some fighter =>
      let fighter := { fighter with hp := fighter.hp + amount }
      if fighter.hp > max_hp then { o with fighter := some { fighter with hp := max_hp } }
      else { o with fighter := some fighter }
  | none => o

/-- C10: healing is clamped to the effective maximum.  For an object with a
fighter and a non-negative amount, `heal` produces exactly the same object
with hp replaced by `min (hp + amount) (max_hp)`, where `max_hp` is the
effective maximum (base plus equipped bonuses) at call time.  Since the
result differs from the input only in that one field and the game is not
returned at all, no death or other callback can fire and hp never exceeds
the bound. -/
theorem C10_heal_clamped (o : Object) (game : Game) (amount : Int) (f : Fighter)
    (hf : o.fighter = some f) (_hnn : 0 ≤ amount) :
    o.heal amount game =
      { o with fighter := some { f with hp := min (f.hp + amount) (o.max_hp game) } } := by
  unfold Object.heal
  rw [hf]
  by_cases h : f.hp + amount > o.max_hp game
  · have hmin : min (f.hp + amount) (o.max_hp game) = o.max_hp game := by omega
    simp only [if_pos h, hmin]
  · have hmin : min (f.hp + amount) (o.max_hp game) = f.hp + amount := by omega
    simp only [if_neg h, hmin]

/-- Witness for `C10_heal_clamped`: a player at 95/100 hp healed by 40 ends
at exactly 100 (the clamp), with nothing else changed. -/
theorem C10_heal_clamped_witness :
    let hero : Object :=
      { x := 0, y := 0, char := '@', color := colors.WHITE, name := "player",
        blocks := true, alive := true,
        fighter := some { base_max_hp := 100, hp := 95, base_defense := 1,
                          base_power := 2, on_death := .Player, xp := 0 },
        ai := none, item := none, always_visible := false, level := 1,
        equipment := none }
    hero.heal 40 game0 =
      { hero with fighter := some { base_max_hp := 100, hp := 100, base_defense := 1,
                                    base_power := 2, on_death := .Player, xp := 0 } } := by
  intro hero
  exact C10_heal_clamped hero game0 40 _ rfl (by norm_num)

/-- The hit message `attack` logs (line 319). -/
def attackHitMsg (a target : Object) (damage : Int) : String :=
  a.name ++ " attacks " ++ target.name ++ " for " ++ toString damage ++ " hit points."

/-- The no-effect message `attack` logs (line 326). -/
def attackNoEffectMsg (a target : Object) : String :=
  a.name ++ " attacks " ++ target.name ++ " but it has no effect!"

/-- `Object::attack` (lines 314-329): damage is the attacker's effective
power minus the target's effective defense, both computed at call time.
Positive damage is logged and applied through `take_damage` (the attacker
collects any xp award); otherwise a no-effect message is logged and the
target is untouched. -/
def Object.attack (a : Object) (target : Object) (game : Game) :
    Object × Object × Game :=
  let damage := a.power game - target.defense game
  if damage > 0 then
    let game := { game with log := addMsg game.log (attackHitMsg a target damage) colors.RED }
    let (target, game, xpOpt) := target.take_damage damage game
    match xpOpt with
    | some xp =>
        -- `self.fighter.as_mut().unwrap().xp += xp` — the attacker always
        -- has a fighter at this point (it dealt positive damage)
        ({ a with fighter := a.fighter.map (fun f => { f with xp := f.xp + xp }) }, target, game)
    | none => (a, target, game)
  else
    (a, target, { game with log := addMsg game.log (attackNoEffectMsg a target) colors.RED })

/-- `n` repeated attacks of `a` on `target` — one per turn in which the
basic AI (or the player) attacks the same opponent with unchanged stats. -/
def attackN : Nat → Object → Object → Game → Object × Object × Game
  | 0, a, target, game => (a, target, game)
  | n + 1, a, target, game =>
      let r := Object.attack a target game
      attackN n r.1 r.2.1 r.2.2

/-- `get_all_equipped` only looks at the object's name and the game's
inventory. -/
theorem get_all_equipped_eq (o1 o2 : Object) (g1 g2 : Game)
    (hn : o1.name = o2.name) (hi : g1.inventory = g2.inventory) :
    o1.get_all_equipped g1 = o2.get_all_equipped g2 := by
  simp [Object.get_all_equipped, hn, hi]

/-- `power` is unchanged by anything that keeps the inventory: the log, the
map and the entities outside the inventory play no role. -/
theorem power_congr_game (o : Object) (g1 g2 : Game) (hi : g1.inventory = g2.inventory) :
    o.power g1 = o.power g2 := by
  unfold Object.power
  rw [get_all_equipped_eq o o g1 g2 rfl hi]

/-- `defense` ignores the target's hp: lowering hp (or any change keeping
name and `base_defense`) leaves the effective defense alone. -/
theorem defense_hp_update (t : Object) (f : Fighter) (h : Int) (g1 g2 : Game)
    (hf : t.fighter = some f) (hi : g1.inventory = g2.inventory) :
    ({ t with fighter := some { f with hp := h } }).defense g1 = t.defense g2 := by
  unfold Object.defense
  rw [get_all_equipped_eq { t with fighter := some { f with hp := h } } t g1 g2 rfl hi, hf]
  rfl

/-- A non-lethal positive-damage attack: the attacker and the rest of the
target are unchanged, the target's hp drops by exactly the damage, and one
attack message is appended to the log. -/
theorem attack_surviving (a t : Object) (g : Game) (f : Fighter)
    (hf : t.fighter = some f)
    (hpos : 0 < a.power g - t.defense g)
    (hlive : 0 < f.hp - (a.power g - t.defense g)) :
    a.attack t g =
      (a, { t with fighter := some { f with hp := f.hp - (a.power g - t.defense g) } },
       { g with log := addMsg g.log (attackHitMsg a t (a.power g - t.defense g)) colors.RED }) := by
  have hnd : ¬ (f.hp - (a.power g - t.defense g) ≤ 0) := by omega
  simp [Object.attack, Object.take_damage, hf, hpos, hnd]

/-- A lethal attack leaves the target not alive: `take_damage` flips
`alive` to false before the death callback, and neither callback restores
it. -/
theorem attack_killing (a t : Object) (g : Game) (f : Fighter)
    (hf : t.fighter = some f)
    (hpos : 0 < a.power g - t.defense g)
    (hdead : f.hp - (a.power g - t.defense g) ≤ 0) :
    ((a.attack t g).2.1).alive = false := by
  have hdead2 : f.hp ≤ a.power g - t.defense g := by omega
  cases hcb : f.on_death <;>
    simp [Object.attack, Object.take_damage, hf, hpos, hcb, hdead, hdead2,
      DeathCallback.callback, player_death, monster_death]

/-- One attack step on a bundled state. -/
def attack1 (r : Object × Object × Game) : Object × Object × Game :=
  Object.attack r.1 r.2.1 r.2.2

/-- `attackN` can be unrolled from the back. -/
theorem attackN_succ_last (n : Nat) (a t : Object) (g : Game) :
    attackN (n + 1) a t g = attack1 (attackN n a t g) := by
  induction n generalizing a t g with
  | zero => rfl
  | succ n ih =>
      show attackN (n + 1) (Object.attack a t g).1 (Object.attack a t g).2.1
        (Object.attack a t g).2.2 = _
      rw [ih]
      rfl

/-- As long as the accumulated damage stays below the target's hp, `n`
identical attacks leave the attacker untouched and the target at
`hp − n·damage`, with only the log of the game changed. -/
theorem attackN_surviving (n : Nat) (a t : Object) (g : Game) (f : Fighter)
    (hf : t.fighter = some f)
    (hpos : 0 < a.power g - t.defense g)
    (hlive : 0 < f.hp - (n : Int) * (a.power g - t.defense g)) :
    ∃ log2, attackN n a t g =
      (a, { t with fighter := some { f with hp := f.hp - (n : Int) * (a.power g - t.defense g) } },
       { g with log := log2 }) := by
  induction n generalizing t g f with
  | zero =>
      refine ⟨g.log, ?_⟩
      have hhp : f.hp - ((0 : Nat) : Int) * (a.power g - t.defense g) = f.hp := by
        push_cast
        ring
      show (a, t, g) = _
      rw [hhp]
      rw [show (some { f with hp := f.hp } : Option Fighter) = t.fighter from by rw [hf]]
  | succ n ih =>
      have hexp : ((n + 1 : Nat) : Int) * (a.power g - t.defense g)
          = (n : Int) * (a.power g - t.defense g) + (a.power g - t.defense g) := by
        push_cast
        ring
      have hmul : 0 ≤ (n : Int) * (a.power g - t.defense g) :=
        mul_nonneg (Int.natCast_nonneg n) (le_of_lt hpos)
      have hl : 0 < f.hp - ((n : Int) * (a.power g - t.defense g) + (a.power g - t.defense g)) := by
        rw [← hexp]
        exact hlive
      have hlive1 : 0 < f.hp - (a.power g - t.defense g) := by omega
      have hstep := attack_surviving a t g f hf hpos hlive1
      set t1 : Object := { t with fighter := some { f with hp := f.hp - (a.power g - t.defense g) } } with ht1
      set g1 : Game :=
        { g with log := addMsg g.log (attackHitMsg a t (a.power g - t.defense g)) colors.RED }
        with hg1
      have hstat : a.power g1 - t1.defense g1 = a.power g - t.defense g := by
        rw [power_congr_game a g1 g rfl, ht1, defense_hp_update t f _ g1 g hf rfl]
      have hf1 : t1.fighter = some { f with hp := f.hp - (a.power g - t.defense g) } := rfl
      have hpos1 : 0 < a.power g1 - t1.defense g1 := by rw [hstat]; exact hpos
      have hlive2 : 0 < ({ f with hp := f.hp - (a.power g - t.defense g) } : Fighter).hp
          - (n : Int) * (a.power g1 - t1.defense g1) := by
        rw [hstat]
        show 0 < f.hp - (a.power g - t.defense g) - (n : Int) * (a.power g - t.defense g)
        omega
      obtain ⟨log2, hrec⟩ := ih t1 g1 _ hf1 hpos1 hlive2
      refine ⟨log2, ?_⟩
      show attackN n (Object.attack a t g).1 (Object.attack a t g).2.1
        (Object.attack a t g).2.2 = _
      rw [hstep]
      dsimp only
      rw [hrec, hstat]
      have harith : ({ f with hp := f.hp - (a.power g - t.defense g) } : Fighter).hp
          - (n : Int) * (a.power g - t.defense g)
          = f.hp - ((n + 1 : Nat) : Int) * (a.power g - t.defense g) := by
        show f.hp - (a.power g - t.defense g) - (n : Int) * (a.power g - t.defense g) = _
        push_cast
        ring
      rw [harith]

/-- C7: attack resolution is the deterministic function
`damage = attacker.power − defender.defense` (effective stats, computed at
call time from base value plus equipped bonuses).  (i) Non-positive damage
logs the no-effect message and leaves the defender untouched; (ii) positive
non-lethal damage lowers the defender's hp by exactly the damage;
(iii) `n` identical attacks from hp `h` leave the defender at `h − n·d`
while that stays positive; (iv) the first attack taking hp to 0 or below
makes the defender not alive (death triggers). -/
theorem C7_attack_resolution (a t : Object) (g : Game) (f : Fighter) (n : Nat)
    (hf : t.fighter = some f) :
    (a.power g - t.defense g ≤ 0 →
      a.attack t g =
        (a, t, { g with log := addMsg g.log (attackNoEffectMsg a t) colors.RED })) ∧
    (0 < a.power g - t.defense g → 0 < f.hp - (a.power g - t.defense g) →
      a.attack t g =
        (a, { t with fighter := some { f with hp := f.hp - (a.power g - t.defense g) } },
         { g with log := addMsg g.log (attackHitMsg a t (a.power g - t.defense g)) colors.RED })) ∧
    (0 < a.power g - t.defense g → 0 < f.hp - (n : Int) * (a.power g - t.defense g) →
      ∃ log2, attackN n a t g =
        (a, { t with fighter := some { f with hp := f.hp - (n : Int) * (a.power g - t.defense g) } },
         { g with log := log2 })) ∧
    (0 < a.power g - t.defense g → 0 < f.hp - (n : Int) * (a.power g - t.defense g) →
      f.hp - ((n : Int) + 1) * (a.power g - t.defense g) ≤ 0 →
      ((attackN (n + 1) a t g).2.1).alive = false) := by
  refine ⟨?_, ?_, ?_, ?_⟩
  · intro hle
    have hx : ¬ (0 < a.power g - t.defense g) := by omega
    simp [Object.attack, hx]
  · intro hpos hlive
    exact attack_surviving a t g f hf hpos hlive
  · intro hpos hlive
    exact attackN_surviving n a t g f hf hpos hlive
  · intro hpos hlive hkill
    obtain ⟨log2, hN⟩ := attackN_surviving n a t g f hf hpos hlive
    rw [attackN_succ_last, hN]
    simp only [attack1]
    set tn : Object :=
      { t with fighter := some { f with hp := f.hp - (n : Int) * (a.power g - t.defense g) } }
      with htn
    set gn : Game := { g with log := log2 } with hgn
    have hstat : a.power gn - tn.defense gn = a.power g - t.defense g := by
      rw [power_congr_game a gn g rfl, htn, defense_hp_update t f _ gn g hf rfl]
    apply attack_killing a tn gn
      { f with hp := f.hp - (n : Int) * (a.power g - t.defense g) } rfl
    · rw [hstat]
      exact hpos
    · rw [hstat]
      show f.hp - (n : Int) * (a.power g - t.defense g) - (a.power g - t.defense g) ≤ 0
      have hexp : ((n : Int) + 1) * (a.power g - t.defense g)
          = (n : Int) * (a.power g - t.defense g) + (a.power g - t.defense g) := by ring
      rw [hexp] at hkill
      omega

/-- Concrete attacker for the C7 witness (stats of the tutorial's troll). -/
def heroC7 : Object :=
  { x := 0, y := 0, char := '@', color := colors.WHITE, name := "hero",
    blocks := true, alive := true,
    fighter := some { base_max_hp := 30, hp := 30, base_defense := 2,
                      base_power := 5, on_death := .Monster, xp := 100 },
    ai := none, item := none, always_visible := false, level := 1,
    equipment := none }

/-- The C7 witness's defender: an orc at 20 hp with no defense. -/
def orcC7 : Object :=
  { x := 1, y := 0, char := 'o', color := colors.GREEN, name := "orc",
    blocks := true, alive := true,
    fighter := some { base_max_hp := 20, hp := 20, base_defense := 0,
                      base_power := 4, on_death := .Monster, xp := 35 },
    ai := some .Basic, item := none, always_visible := false, level := 1,
    equipment := none }

/-- Witness for `C7_attack_resolution`: damage is 5 per blow, so the orc at
20 hp survives 3 attacks and the 4th kills it. -/
theorem C7_attack_resolution_witness :
    ((attackN 4 heroC7 orcC7 game0).2.1).alive = false := by
  have h := C7_attack_resolution heroC7 orcC7 game0
    { base_max_hp := 20, hp := 20, base_defense := 0,
      base_power := 4, on_death := .Monster, xp := 35 } 3 rfl
  exact h.2.2.2 (by decide) (by decide) (by decide)

/-- The effect of a successful `cast_confuse` on the targeted monster
(lines 1116-1125): the current AI is taken out of the object (`Basic` when
there was none) and wrapped — whatever it is — in a fresh `Confused` with
the full `CONFUSE_NUM_TURNS` counter. -/
def castConfuseOn (monster : Object) (game : Game) : Object × Game :=
  let old_ai := monster.ai.getD Ai.Basic
  let monster := { monster with ai := some (Ai.Confused old_ai CONFUSE_NUM_TURNS) }
  let msg := "The eyes of " ++ monster.name ++ " look vacant, as he starts to stumble around!"
  (monster, { game with log := addMsg game.log msg colors.LIGHT_GREEN })

/-- Nesting depth of `Confused` wrappers in an AI state. -/
def Ai.confusedDepth : Ai → Nat
  | .Basic => 0
  | .Confused previous_ai _ => previous_ai.confusedDepth + 1

/-- C4 counterexample: confusing an already-confused monster does not
discard the stored previous state — it wraps it.  Two casts on a
basic-AI orc leave `Confused { previous: Confused { previous: Basic } }`,
recursion depth 2, whose saved previous state is itself `Confused`. -/
theorem C4_reapplied_confusion_nests :
    ((castConfuseOn (castConfuseOn orcC7 game0).1 game0).1.ai
      = some (Ai.Confused (Ai.Confused Ai.Basic 10) 10)) ∧
    (Ai.Confused (Ai.Confused Ai.Basic 10) 10).confusedDepth = 2 := by
  decide

/-- C4 (amended): re-applying confusion nests rather than discards — each
cast wraps the monster's current AI state (`Basic` when absent), so the
`Confused` recursion depth grows by exactly one per application and is
unbounded over sequences of applications. -/
theorem C4_cast_confuse_wraps_current_ai (monster : Object) (game : Game) :
    ((castConfuseOn monster game).1.ai.getD Ai.Basic).confusedDepth
      = (monster.ai.getD Ai.Basic).confusedDepth + 1 := by
  cases h : monster.ai <;> simp [castConfuseOn, h, Ai.confusedDepth]

/-- The message `ai_confused` logs on restoration (lines 898-900). -/
def noLongerConfusedMsg (name : String) : String :=
  "The " ++ name ++ " is no longer confused!"

/-- `ai_confused` (lines 888-903) as it acts on the AI value and the log:
while the counter is still non-negative the monster takes one random step
(`move_by`, which touches only the monster's position and never the log or
the AI) and the wrapper is kept with the counter decremented; once the
counter is negative the previous AI is returned and the restoration
message is logged. -/
def ai_confused (name : String) (previous_ai : Ai) (num_turns : Int) (game : Game) :
    Ai × Game :=
  if num_turns ≥ 0 then
    (Ai.Confused previous_ai (num_turns - 1), game)
  else
    (previous_ai, { game with log := addMsg game.log (noLongerConfusedMsg name) colors.RED })

/-- `ai_take_turn` (lines 861-871) as it acts on one monster's AI state and
the log.  `ai_basic` (lines 873-886) chases or attacks the player and always
returns `Ai::Basic`; its side effects land on other entities (see
`Object.attack`) and are never reached in the confusion-lifecycle theorems
below, which stop at the activation that restores the previous state. -/
def ai_take_turn_ai (name : String) (ai : Ai) (game : Game) : Ai × Game :=
  match ai with
  | Ai.Basic => (Ai.Basic, game)
  | Ai.Confused previous_ai num_turns => ai_confused name previous_ai num_turns game

/-- `count` successive AI activations of the same monster. -/
def ai_activations (name : String) : Nat → Ai → Game → Ai × Game
  | 0, ai, game => (ai, game)
  | count + 1, ai, game =>
      let r := ai_take_turn_ai name ai game
      ai_activations name count r.1 r.2

/-- C6 counterexample: with the in-game counter `CONFUSE_NUM_TURNS = 10`,
after exactly `turns_remaining + 1 = 11` activations the monster is still
`Confused` (counter −1) and nothing has been logged — it is *not* yet
restored to its pre-confusion state. -/
theorem C6_not_restored_after_turns_plus_one :
    (ai_activations "orc" 11 (Ai.Confused Ai.Basic 10) game0
      = (Ai.Confused Ai.Basic (-1), game0)) ∧
    Ai.Confused Ai.Basic (-1) ≠ Ai.Basic := by
  decide

/-- C6 (amended): applying confusion with counter `turns_remaining = n` and
letting exactly `n + 2` AI activations elapse restores the entity to its
pre-confusion AI state; activations `1..n+1` each take a random step and
only decrement the counter, and the "no longer confused" message is logged
exactly once, on the final (restoring) activation. -/
theorem C6_restored_after_turns_plus_two (n : Nat) (previous_ai : Ai) (game : Game)
    (name : String) :
    ai_activations name (n + 2) (Ai.Confused previous_ai (n : Int)) game
      = (previous_ai,
         { game with log := addMsg game.log (noLongerConfusedMsg name) colors.RED }) := by
  induction n generalizing game with
  | zero =>
      norm_num [ai_activations, ai_take_turn_ai, ai_confused]
  | succ n ih =>
      have hge : ((n + 1 : Nat) : Int) ≥ 0 := by positivity
      have hstep : ai_take_turn_ai name (Ai.Confused previous_ai ((n + 1 : Nat) : Int)) game
          = (Ai.Confused previous_ai ((n : Nat) : Int), game) := by
        show ai_confused name previous_ai ((n + 1 : Nat) : Int) game = _
        unfold ai_confused
        rw [if_pos hge]
        have hx : ((n + 1 : Nat) : Int) - 1 = ((n : Nat) : Int) := by
          push_cast
          ring
        rw [hx]
      show ai_activations name (n + 2)
        (ai_take_turn_ai name (Ai.Confused previous_ai ((n + 1 : Nat) : Int)) game).1
        (ai_take_turn_ai name (Ai.Confused previous_ai ((n + 1 : Nat) : Int)) game).2 = _
      rw [hstep]
      exact ih game

/-- `level_up` (lines 1392-1425), the once-per-frame check.  The stat menu
blocks until one of its three options is chosen; the chosen index is an
input here.  The source `unwrap`s the fighter after the xp test passed;
the `none` arm below leaves the player unchanged (with the game's positive
thresholds the test cannot pass without a fighter).  The `_` arm of the
choice mirrors the source's `unreachable!()` — the menu only yields 0-2. -/
def level_up (player : Object) (game : Game) (choice : Nat) : Object × Game :=
  let level_up_xp := LEVEL_UP_BASE + player.level * LEVEL_UP_FACTOR
  if (player.fighter.map Fighter.xp).getD 0 ≥ level_up_xp then
    let player := { player with level := player.level + 1 }
    let msg := "Your battle skills grow stronger! You reached level " ++
      toString player.level ++ "!"
    let game := { game with log := addMsg game.log msg colors.YELLOW }
    match player.fighter with
    | some fighter =>
        let fighter := { fighter with xp := fighter.xp - level_up_xp }
        let fighter :=
          match choice with
          | 0 => { fighter with base_max_hp := fighter.base_max_hp + 20, hp := fighter.hp + 20 }
          | 1 => { fighter with base_power := fighter.base_power + 1 }
          | 2 => { fighter with base_defense := fighter.base_defense + 1 }
          | _ => fighter
        ({ player with fighter := some fighter }, game)
    | none => (player, game)
  else (player, game)

/-- A level-1 player sitting on 1000 xp — enough for two level-ups
(thresholds 350 and then 500). -/
def richPlayer : Object :=
  { x := 0, y := 0, char := '@', color := colors.WHITE, name := "player",
    blocks := true, alive := true,
    fighter := some { base_max_hp := 100, hp := 100, base_defense := 1,
                      base_power := 2, on_death := .Player, xp := 1000 },
    ai := none, item := none, always_visible := false, level := 1,
    equipment := none }

/-- C5 counterexample: the level-up check is a single `if`, not a loop.
With 1000 xp at level 1 one invocation raises the player only to level 2
and leaves 650 xp — still at or above the level-2 threshold of 500 — so a
single large XP award does *not* raise the player more than one level in
one frame's check. -/
theorem C5_single_level_per_frame_check :
    ((level_up richPlayer game0 0).1.level = 2) ∧
    (((level_up richPlayer game0 0).1.fighter.map Fighter.xp).getD 0 = 650) ∧
    (LEVEL_UP_BASE + 2 * LEVEL_UP_FACTOR ≤ 650) := by
  decide

/-- C5 (amended): the per-frame check performs at most one level-up per
invocation.  When the accumulated experience reaches
`BASE + level·FACTOR`, one stat choice is applied, that threshold is
subtracted and the level is incremented by exactly one (with one message
logged); a level never grows by more than one in a single call, and
multi-level gains from one large award happen only across successive
frames, because the check runs every frame. -/
theorem C5_level_up_single_step (player : Object) (game : Game) (fighter : Fighter)
    (choice : Nat) (hf : player.fighter = some fighter)
    (hxp : fighter.xp ≥ LEVEL_UP_BASE + player.level * LEVEL_UP_FACTOR) :
    ((level_up player game choice).1.level = player.level + 1) ∧
    (((level_up player game choice).1.fighter.map Fighter.xp).getD 0
        = fighter.xp - (LEVEL_UP_BASE + player.level * LEVEL_UP_FACTOR)) ∧
    ((level_up player game choice).2.log.length = game.log.length + 1) ∧
    (∀ (p2 : Object) (g2 : Game) (c2 : Nat), (level_up p2 g2 c2).1.level ≤ p2.level + 1) := by
  have hpass : (player.fighter.map Fighter.xp).getD 0
      ≥ LEVEL_UP_BASE + player.level * LEVEL_UP_FACTOR := by
    rw [hf]
    exact hxp
  refine ⟨?_, ?_, ?_, ?_⟩
  · rcases choice with _ | _ | _ | c <;> simp [level_up, hf, hxp, addMsg]
  · rcases choice with _ | _ | _ | c <;> simp [level_up, hf, hxp, addMsg]
  · rcases choice with _ | _ | _ | c <;> simp [level_up, hf, hxp, addMsg]
  · intro p2 g2 c2
    by_cases h2 : (p2.fighter.map Fighter.xp).getD 0
        ≥ LEVEL_UP_BASE + p2.level * LEVEL_UP_FACTOR
    · cases hf2 : p2.fighter with
      | none =>
          rw [hf2] at h2
          simp at h2
          simp [level_up, hf2, h2]
      | some f2 =>
          rw [hf2] at h2
          simp at h2
          rcases c2 with _ | _ | _ | c <;> simp [level_up, hf2, h2]
    · rw [ge_iff_le, not_le] at h2
      have h3 : (p2.fighter.map Fighter.xp).getD 0 < LEVEL_UP_BASE + p2.level * LEVEL_UP_FACTOR := h2
      simp [level_up, not_le_of_lt h3]

/-- Witness for `C5_level_up_single_step` at the concrete 1000-xp player:
one call yields level 2, 650 remaining xp, one logged message. -/
theorem C5_level_up_single_step_witness :
    ((level_up richPlayer game0 1).1.level = 2) ∧
    (((level_up richPlayer game0 1).1.fighter.map Fighter.xp).getD 0 = 650) ∧
    ((level_up richPlayer game0 1).2.log.length = 1) := by
  have h := C5_level_up_single_step richPlayer game0
    { base_max_hp := 100, hp := 100, base_defense := 1, base_power := 2,
      on_death := .Player, xp := 1000 } 1 rfl (by decide)
  refine ⟨?_, ?_, ?_⟩
  · rw [h.1]
    decide
  · rw [h.2.1]
    decide
  · rw [h.2.2.1]
    decide

/-- `struct Rect` (lines 145-150). -/
structure Rect where
  x1 : Int
  y1 : Int
  x2 : Int
  y2 : Int
deriving DecidableEq, Repr

/-- `Rect::new` (lines 200-202). -/
def Rect.new (x y w h : Int) : Rect :=
  { x1 := x, y1 := y, x2 := x + w, y2 := y + h }

/-- `Rect::center` (lines 204-208).  All generated rooms have non-negative
coordinates, where Lean's integer division agrees with Rust's. -/
def Rect.center (r : Rect) : Int × Int :=
  ((r.x1 + r.x2) / 2, (r.y1 + r.y2) / 2)

/-- `Rect::intersects_with` (lines 210-213) — inclusive-bound AABB test. -/
def Rect.intersects_with (r other : Rect) : Bool :=
  decide (r.x1 ≤ other.x2) && decide (r.x2 ≥ other.x1) &&
  decide (r.y1 ≤ other.y2) && decide (r.y2 ≥ other.y1)

/-- `map[x as usize][y as usize] = t`, total: the generators only write
inside the grid, so the out-of-range no-op branch is never taken. -/
def setTile (m : Map) (x y : Int) (t : Tile) : Map :=
  match m[x.toNat]? with
  | some column => m.set x.toNat (column.set y.toNat t)
  | none => m

/-- The integers `lo, lo+1, …, hi−1` (a Rust `lo..hi` loop). -/
def intRange (lo hi : Int) : List Int :=
  (List.range (hi - lo).toNat).map (fun i => lo + (i : Int))

/-- `create_room` (lines 684-690): carve the interior, leaving the 1-tile
margin. -/
def create_room (room : Rect) (m : Map) : Map :=
  (intRange (room.x1 + 1) room.x2).foldl
    (fun m x => (intRange (room.y1 + 1) room.y2).foldl
      (fun m y => setTile m x y Tile.empty) m) m

/-- `create_h_tunnel` (lines 692-697). -/
def create_h_tunnel (x1 x2 y : Int) (m : Map) : Map :=
  (intRange (min x1 x2) (max x1 x2 + 1)).foldl (fun m x => setTile m x y Tile.empty) m

/-- `create_v_tunnel` (lines 699-704). -/
def create_v_tunnel (y1 y2 x : Int) (m : Map) : Map :=
  (intRange (min y1 y2) (max y1 y2 + 1)).foldl (fun m y => setTile m x y Tile.empty) m

/-- The four `gen_range` draws of one room attempt (lines 444-448).
`gen_range(low, high)` is modelled as `low + seed % (high − low)`, which
ranges over exactly the interval the source samples from. -/
structure RoomSample where
  wSeed : Nat
  hSeed : Nat
  xSeed : Nat
  ySeed : Nat

/-- The candidate rectangle of one attempt (lines 444-450). -/
def sampleRoom (s : RoomSample) : Rect :=
  let w : Int := ROOM_MIN_SIZE + ((s.wSeed % (ROOM_MAX_SIZE + 1 - ROOM_MIN_SIZE).toNat : Nat) : Int)
  let h : Int := ROOM_MIN_SIZE + ((s.hSeed % (ROOM_MAX_SIZE + 1 - ROOM_MIN_SIZE).toNat : Nat) : Int)
  let x : Int := ((s.xSeed % (MAP_WIDTH - w).toNat : Nat) : Int)
  let y : Int := ((s.ySeed % (MAP_HEIGHT - h).toNat : Nat) : Int)
  Rect.new x y w h

/-- The loop state of `make_map`: the map being carved, the accepted rooms,
the starting position, and the remaining coin flips for tunnel layout. -/
structure MapGenState where
  map : Map
  rooms : List Rect
  starting_position : Int × Int
  flips : List Bool

/-- One iteration of the `for _ in 0..MAX_ROOMS` loop of `make_map`
(lines 443-476): sample a candidate, reject it if it intersects any
accepted room, otherwise carve it, remember the first center as the start,
and tunnel to the previous room's center (horizontal-then-vertical or the
reverse, by coin flip).  `place_objects` only appends monster/item
entities — it never touches the map tiles, the room list or the
positions this claim is about, and is omitted here. -/
def make_map_step (st : MapGenState) (s : RoomSample) : MapGenState :=
  let new_room := sampleRoom s
  let failed := st.rooms.any (fun other_room => new_room.intersects_with other_room)
  if failed then st
  else
    let map := create_room new_room st.map
    let c := new_room.center
    match st.rooms.getLast? with
    | none =>
        { map := map, rooms := st.rooms ++ [new_room],
          starting_position := c, flips := st.flips }
    | some prev_room =>
        let p := prev_room.center
        let (flip, rest) := match st.flips with
          | f :: r => (f, r)
          | [] => (true, [])
        let map :=
          if flip then create_v_tunnel p.2 c.2 c.1 (create_h_tunnel p.1 c.1 p.2 map)
          else create_h_tunnel p.1 c.1 c.2 (create_v_tunnel p.2 c.2 p.1 map)
        { map := map, rooms := st.rooms ++ [new_room],
          starting_position := st.starting_position, flips := rest }

/-- The initial all-walls state of `make_map` (lines 434-438). -/
def mapGenInit (flips : List Bool) : MapGenState :=
  { map := List.replicate MAP_WIDTH.toNat (List.replicate MAP_HEIGHT.toNat Tile.wall),
    rooms := [], starting_position := (0, 0), flips := flips }

/-- The rooms accepted by the attempt loop for a given random sequence. -/
def acceptedRooms (samples : List RoomSample) (flips : List Bool) : List Rect :=
  (samples.foldl make_map_step (mapGenInit flips)).rooms

/-- `make_map` (lines 432-485) as a total function: the final
`rooms[rooms.len() - 1]` of the source — an unguarded panic on an empty
room list — becomes the guarded `getLast?` lookup whose `none` branch is
the generation failure.  On success it returns the carved map, the player
starting position and the stairs position (the last room's center). -/
def make_map (samples : List RoomSample) (flips : List Bool) :
    Option (Map × (Int × Int) × (Int × Int)) :=
  let st := samples.foldl make_map_step (mapGenInit flips)
  match st.rooms.getLast? with
  | none => none
  | some last_room => some (st.map, st.starting_position, last_room.center)

/-- A step never discards accepted rooms. -/
theorem make_map_step_rooms_ne_nil (st : MapGenState) (s : RoomSample)
    (h : st.rooms ≠ []) : (make_map_step st s).rooms ≠ [] := by
  unfold make_map_step
  by_cases hfail : st.rooms.any (fun other_room => (sampleRoom s).intersects_with other_room)
  · simpa [hfail]
  · cases hlast : st.rooms.getLast? <;> simp [hfail, hlast]

/-- Once a room has been accepted the loop can never end with none. -/
theorem foldl_rooms_ne_nil (l : List RoomSample) (st : MapGenState)
    (h : st.rooms ≠ []) : (l.foldl make_map_step st).rooms ≠ [] := by
  induction l generalizing st with
  | nil => simpa
  | cons s rest ih => exact ih _ (make_map_step_rooms_ne_nil st s h)

/-- The very first attempt is always accepted: the overlap test against an
empty room list fails. -/
theorem make_map_step_of_rooms_nil (st : MapGenState) (s : RoomSample)
    (h : st.rooms = []) : (make_map_step st s).rooms = [sampleRoom s] := by
  unfold make_map_step
  simp [h]

/-- C2: in the total embedding the stairs placement of `make_map` is the
guarded `getLast?` of the accepted-room list, and its error branch is taken
exactly when that list is empty — the generator never returns a map with
unspecified stairs/player position (in the source this case is an
index-out-of-bounds panic, i.e. a fatal failure of the attempt, never a
silently empty dungeon).  Moreover zero accepted rooms happens only for an
empty attempt sequence: with the source's 30 attempts the first candidate
is always accepted, so generation always succeeds. -/
theorem C2_zero_rooms_never_silent (samples : List RoomSample) (flips : List Bool) :
    ((make_map samples flips).isNone ↔ acceptedRooms samples flips = []) ∧
    (acceptedRooms samples flips = [] ↔ samples = []) := by
  constructor
  · unfold make_map acceptedRooms
    cases hlast : (samples.foldl make_map_step (mapGenInit flips)).rooms.getLast? with
    | none =>
        simp only [hlast, Option.isNone_none]
        exact ⟨fun _ => List.getLast?_eq_none_iff.mp hlast, fun _ => trivial⟩
    | some r =>
        simp only [hlast, Option.isNone_some]
        constructor
        · intro h
          cases h
        · intro h
          rw [List.getLast?_eq_none_iff.mpr h] at hlast
          cases hlast
  · constructor
    · intro h
      by_contra hne
      cases samples with
      | nil => exact hne rfl
      | cons s rest =>
          have h0 : (make_map_step (mapGenInit flips) s).rooms = [sampleRoom s] :=
            make_map_step_of_rooms_nil _ s rfl
          have : (rest.foldl make_map_step (make_map_step (mapGenInit flips) s)).rooms ≠ [] :=
            foldl_rooms_ne_nil rest _ (by rw [h0]; exact List.cons_ne_nil _ _)
          exact this h
    · intro h
      rw [h]
      rfl

/-- The unit of persistence: `(Vec<Object>, Game)`, serialized and
deserialized as one value (lines 1332, 1386). -/
abbrev SaveData := List Object × Game

/-- Process-level outcome of the quit path. -/
inductive QuitOutcome where
  | exited
  | panicked (msg : String)
deriving DecidableEq, Repr

/-- The quit path of `play_game` (lines 1313-1316): on `PlayerAction::Exit`
the source runs `save_game(objects, game).unwrap()` and breaks out of the
loop.  The save result comes from the persistence collaborator (file
creation/write or encoding failure); `unwrap` turns its `Err` into a panic
and its `Ok` into a clean exit. -/
def play_game_quit (saveResult : Except String Unit) : QuitOutcome :=
  match saveResult with
  | .ok _ => .exited
  | .error e => .panicked e

/-- Outcome of the "Continue last game" branch of `main_menu`. -/
inductive ContinueOutcome where
  | noSavedGameMsg
  | playedTwice
  | panicked
deriving DecidableEq, Repr

/-- The `Some(1)` (continue) branch of `main_menu` (lines 1357-1371).  The
first `load_game()` is matched: `Err` shows the "No saved game to load."
message box and continues the menu loop; `Ok` plays the loaded game.  After
that `match`, the branch unconditionally calls `load_game().unwrap()` a
second time and plays again: an `Err` from this second load panics instead
of reporting the recoverable condition. -/
def main_menu_continue (first second : Except String SaveData) : ContinueOutcome :=
  match first with
  | .error _ => .noSavedGameMsg
  | .ok _ =>
      match second with
      | .error _ => .panicked
      | .ok _ => .playedTwice

/-- C3 counterexample: persistence failures *can* crash the process.  A
failing save on quit panics through `unwrap` (it is not surfaced as a
message), and the second load of the Continue branch panics on failure
instead of reporting "no saved game". -/
theorem C3_persistence_failure_panics :
    (play_game_quit (Except.error "disk full") = QuitOutcome.panicked "disk full") ∧
    (main_menu_continue (Except.ok ([], game0)) (Except.error "savegame deleted")
      = ContinueOutcome.panicked) :=
  ⟨rfl, rfl⟩

/-- C3 (amended): a successful save on quit exits cleanly and a failed save
panics the process (fatal, neither silent success nor a surfaced message);
in the Continue branch a failure of the *first* load is always reported as
the recoverable "No saved game to load." condition, but the branch then
performs a second load whose failure panics. -/
theorem C3_persistence_paths (e : String) (d : SaveData) :
    (play_game_quit (Except.ok ()) = QuitOutcome.exited) ∧
    (play_game_quit (Except.error e) = QuitOutcome.panicked e) ∧
    (∀ second : Except String SaveData,
      main_menu_continue (Except.error e) second = ContinueOutcome.noSavedGameMsg) ∧
    (main_menu_continue (Except.ok d) (Except.error e) = ContinueOutcome.panicked) ∧
    (main_menu_continue (Except.ok d) (Except.ok d) = ContinueOutcome.playedTwice) :=
  ⟨rfl, rfl, fun _ => rfl, rfl, rfl⟩

/-- `impl Display for Slot` (lines 189-197). -/
def slotName : Slot → String
  | .LeftHand => "left hand"
  | .RightHand => "right hand"
  | .Head => "head"

/-- `Object::equip` (lines 345-361): set the `equipped` flag (and log)
unless the object is not an item or not an equipment — then only log a
diagnostic.  The source's diagnostic interpolates the object's debug dump;
the name stands in for it here. -/
def Object.equip (o : Object) (log : Messages) : Object × Messages :=
  if o.item.isNone then
    (o, addMsg log ("Can't equip " ++ o.name ++ " because it's not an Item.") colors.RED)
  else
    match o.equipment with
    | some equipment =>
        if !equipment.equipped then
          ({ o with equipment := some { equipment with equipped := true } },
           addMsg log ("Equippe " ++ o.name ++ " on " ++ slotName equipment.slot)
             colors.LIGHT_GREEN)
        else (o, log)
    | none =>
        (o, addMsg log ("Can't equip " ++ o.name ++ " because it's not an Equipment.")
          colors.RED)

/-- `Object::dequip` (lines 363-379). -/
def Object.dequip (o : Object) (log : Messages) : Object × Messages :=
  if o.item.isNone then
    (o, addMsg log ("Can't dequip " ++ o.name ++ " because it's not an Item.") colors.RED)
  else
    match o.equipment with
    | some equipment =>
        if equipment.equipped then
          ({ o with equipment := some { equipment with equipped := false } },
           addMsg log ("Dequipped " ++ o.name ++ " from " ++ slotName equipment.slot ++ ".")
             colors.LIGHT_YELLOW)
        else (o, log)
    | none =>
        (o, addMsg log ("Can't dequip " ++ o.name ++ " because it's not an Equipment.")
          colors.RED)

/-- The predicate of `get_equipped_in_slot` (line 1436): equipment present,
equipped, and occupying `slot`. -/
def equippedInSlotB (slot : Slot) (item : Object) : Bool :=
  match item.equipment with
  | some e => e.equipped && decide (e.slot = slot)
  | none => false

/-- `get_equipped_in_slot` (lines 1434-1441): first inventory index whose
item is equipped in `slot`. -/
def get_equipped_in_slot (slot : Slot) (inventory : List Object) : Option Nat :=
  inventory.findIdx? (equippedInSlotB slot)

/-- Apply an `Object → …` operation to `inventory[i]` in place
(`game.inventory[i].equip(&mut game.log)` and the like).  Out-of-range
indices — a panic in the source, never reached from the menus — leave the
state unchanged. -/
def modifyInv (inv : List Object) (i : Nat)
    (f : Object → Messages → Object × Messages) (log : Messages) :
    List Object × Messages :=
  match inv[i]? with
  | some o =>
      let r := f o log
      (inv.set i r.1, r.2)
  | none => (inv, log)

/-- `toggle_equipment` (lines 1060-1075): if the chosen item has equipment,
first dequip whatever `get_equipped_in_slot` finds in that slot (computed
against the *original* inventory, like the source), then toggle the chosen
item using the equipment snapshot taken at entry. -/
def toggle_equipment (inventory_id : Nat) (inv : List Object) (log : Messages) :
    List Object × Messages :=
  match inv[inventory_id]? with
  | none => (inv, log)
  | some it =>
      match it.equipment with
      | none => (inv, log)  -- UseResult::Cancelled
      | some equipment =>
          let r1 :=
            match get_equipped_in_slot equipment.slot inv with
            | some old_equipment => modifyInv inv old_equipment Object.dequip log
            | none => (inv, log)
          if equipment.equipped then modifyInv r1.1 inventory_id Object.dequip r1.2
          else modifyInv r1.1 inventory_id Object.equip r1.2

/-- `Vec::swap_remove(i)`: move the last element into slot `i` and pop. -/
def swapRemove (l : List Object) (i : Nat) : List Object :=
  if i < l.length then
    match l.getLast? with
    | some last => (l.set i last).dropLast
    | none => l
  else l

/-- The map-objects list, the inventory and the log — the state the
pick-up/drop/equip operations act on.  By convention `objects[0]` is the
player. -/
structure WorldInv where
  objects : List Object
  inventory : List Object
  log : Messages

/-- `pick_item_up` (lines 946-964): reject when the inventory is full;
otherwise `swap_remove` the object from the map list, push it onto the
inventory, and — when it is equipment whose slot has no equipped occupant
(checked *after* the push) — auto-equip it. -/
def pick_item_up (object_id : Nat) (s : WorldInv) : WorldInv :=
  if 26 ≤ s.inventory.length then
    let msg := "Your inventory is full, cannot pick up " ++
      ((s.objects[object_id]?).map Object.name).getD "" ++ "."
    { s with log := addMsg s.log msg colors.RED }
  else
    match s.objects[object_id]? with
    | none => s
    | some item =>
        let objects := swapRemove s.objects object_id
        let log := addMsg s.log ("You picked up a " ++ item.name ++ "!") colors.GREEN
        let index := s.inventory.length
        let slot := item.equipment.map Equipment.slot
        let inventory := s.inventory ++ [item]
        match slot with
        | some slot =>
            if (get_equipped_in_slot slot inventory).isNone then
              let r := modifyInv inventory index Object.equip log
              { objects := objects, inventory := r.1, log := r.2 }
            else { objects := objects, inventory := inventory, log := log }
        | none => { objects := objects, inventory := inventory, log := log }

/-- `drop_item` (lines 1226-1235): remove from the inventory, force a
dequip for equipment, place at the player's position, push onto the map
list. -/
def drop_item (inventory_id : Nat) (s : WorldInv) : WorldInv :=
  match s.inventory[inventory_id]? with
  | none => s
  | some item =>
      let inventory := s.inventory.eraseIdx inventory_id
      let r := if item.equipment.isSome then item.dequip s.log else (item, s.log)
      let px := ((s.objects[0]?).map Object.x).getD 0
      let py := ((s.objects[0]?).map Object.y).getD 0
      let item := { r.1 with x := px, y := py }
      let log := addMsg r.2 ("You dropped a " ++ item.name ++ ".") colors.YELLOW
      { objects := s.objects ++ [item], inventory := inventory, log := log }

/-- The inventory-manager operations of the claim.  `use` on a Sword/Shield
is `toggle_equipment`; a bare dequip is the forced dequip `drop_item`
performs; `Object.equip` itself is reached only through the two guarded
call sites (`toggle_equipment` and `pick_item_up`). -/
inductive InvOp where
  | useToggle (inventory_id : Nat)
  | dequipItem (inventory_id : Nat)
  | pickUp (object_id : Nat)
  | dropIt (inventory_id : Nat)

/-- One operation.  `pickUp` carries the guard of `handle_keys` 'g'
(lines 610-618): only an object with `item.is_some()` is picked up. -/
def applyOp (s : WorldInv) : InvOp → WorldInv
  | .useToggle i =>
      let r := toggle_equipment i s.inventory s.log
      { s with inventory := r.1, log := r.2 }
  | .dequipItem i =>
      let r := modifyInv s.inventory i Object.dequip s.log
      { s with inventory := r.1, log := r.2 }
  | .pickUp gid =>
      match s.objects[gid]? with
      | some o => if o.item.isSome then pick_item_up gid s else s
      | none => s
  | .dropIt i => drop_item i s

/-- A sequence of inventory-manager operations. -/
def applyOps (ops : List InvOp) (s : WorldInv) : WorldInv :=
  ops.foldl applyOp s

/-- Whether an object is an equipped piece of equipment. -/
def isEquippedB (o : Object) : Bool :=
  match o.equipment with
  | some e => e.equipped
  | none => false

/-- The equip-slot invariant of the claim: at most one equipped inventory
item per slot. -/
def SlotInvariant (inventory : List Object) : Prop :=
  ∀ slot : Slot, inventory.countP (equippedInSlotB slot) ≤ 1

/-- The inductive invariant of the reachable states: the slot invariant,
no equipped item lying on the map (spawned equipment starts unequipped and
`drop_item` force-dequips), and every equipment-bearing inventory entry is
an item (`handle_keys` only picks up `item.is_some()` objects). -/
def GoodWorld (s : WorldInv) : Prop :=
  SlotInvariant s.inventory ∧
  (∀ o ∈ s.objects, isEquippedB o = false) ∧
  (∀ o ∈ s.inventory, o.equipment.isSome → o.item.isSome)

/-- Unfolding of the slot-occupancy predicate. -/
theorem equippedInSlotB_iff (slot : Slot) (o : Object) :
    equippedInSlotB slot o = true ↔
      ∃ e, o.equipment = some e ∧ e.equipped = true ∧ e.slot = slot := by
  unfold equippedInSlotB
  cases he : o.equipment with
  | none => simp
  | some e => simp [he, and_assoc]

/-- An unequipped object occupies no slot. -/
theorem equippedInSlotB_of_not_equipped (slot : Slot) (o : Object)
    (h : isEquippedB o = false) : equippedInSlotB slot o = false := by
  unfold isEquippedB at h
  unfold equippedInSlotB
  cases he : o.equipment with
  | none => rfl
  | some e =>
      rw [he] at h
      simp at h
      simp [h]

/-- Successful dequip: with an item and equipment present the result is the
same object with the `equipped` flag cleared (a no-op when it already was). -/
theorem dequip_fst_success (o : Object) (log : Messages) (e : Equipment)
    (hi : o.item.isSome = true) (he : o.equipment = some e) :
    (o.dequip log).1 = { o with equipment := some { e with equipped := false } } := by
  have hni : o.item.isNone = false := by
    cases h : o.item <;> simp_all
  by_cases heq : e.equipped
  · simp [Object.dequip, hni, he, heq]
  · simp only [Object.dequip, hni, he, Bool.false_eq_true, if_false, heq]
    have h1 : ({ e with equipped := false } : Equipment) = e := by
      cases e
      simp_all
    rw [h1, ← he]

/-- Successful equip: with an item and equipment present the result is the
same object with the `equipped` flag set (a no-op when it already was). -/
theorem equip_fst_success (o : Object) (log : Messages) (e : Equipment)
    (hi : o.item.isSome = true) (he : o.equipment = some e) :
    (o.equip log).1 = { o with equipment := some { e with equipped := true } } := by
  have hni : o.item.isNone = false := by
    cases h : o.item <;> simp_all
  by_cases heq : e.equipped
  · simp only [Object.equip, hni, he, Bool.false_eq_true, if_false, heq, Bool.not_true]
    have h1 : ({ e with equipped := true } : Equipment) = e := by
      cases e
      simp_all
    rw [h1, ← he]
  · simp [Object.equip, hni, he, heq]

/-- A dequip either leaves the object alone or clears its flag. -/
theorem dequip_fst_cases (o : Object) (log : Messages) :
    (o.dequip log).1 = o ∨
    ∃ e, o.equipment = some e ∧
      (o.dequip log).1 = { o with equipment := some { e with equipped := false } } := by
  by_cases hi : o.item.isNone
  · left
    simp [Object.dequip, hi]
  · cases he : o.equipment with
    | none =>
        left
        simp [Object.dequip, hi, he]
    | some e =>
        right
        refine ⟨e, rfl, dequip_fst_success o log e ?_ he⟩
        cases h : o.item <;> simp_all

/-- An equip either leaves the object alone or sets its flag. -/
theorem equip_fst_cases (o : Object) (log : Messages) :
    (o.equip log).1 = o ∨
    ∃ e, o.equipment = some e ∧
      (o.equip log).1 = { o with equipment := some { e with equipped := true } } := by
  by_cases hi : o.item.isNone
  · left
    simp [Object.equip, hi]
  · cases he : o.equipment with
    | none =>
        left
        simp [Object.equip, hi, he]
    | some e =>
        right
        refine ⟨e, rfl, equip_fst_success o log e ?_ he⟩
        cases h : o.item <;> simp_all

/-- Dequipping never makes an object occupy a slot. -/
theorem equippedInSlotB_dequip_mono (slot : Slot) (o : Object) (log : Messages) :
    equippedInSlotB slot (o.dequip log).1 = true → equippedInSlotB slot o = true := by
  rcases dequip_fst_cases o log with h | ⟨e, he, h⟩
  · rw [h]
    exact id
  · rw [h]
    intro hx
    simp [equippedInSlotB] at hx

/-- Equip and dequip preserve item and equipment presence. -/
theorem dequip_preserves_flags (o : Object) (log : Messages) :
    (o.dequip log).1.item = o.item ∧ (o.dequip log).1.equipment.isSome = o.equipment.isSome := by
  rcases dequip_fst_cases o log with h | ⟨e, he, h⟩
  · rw [h]
    exact ⟨rfl, rfl⟩
  · rw [h]
    simp [he]

/-- Equip preserves item and equipment presence. -/
theorem equip_preserves_flags (o : Object) (log : Messages) :
    (o.equip log).1.item = o.item ∧ (o.equip log).1.equipment.isSome = o.equipment.isSome := by
  rcases equip_fst_cases o log with h | ⟨e, he, h⟩
  · rw [h]
    exact ⟨rfl, rfl⟩
  · rw [h]
    simp [he]

/-- Counting after a point update. -/
theorem countP_set_eq {α : Type} (p : α → Bool) (l : List α) (i : Nat) (a b : α)
    (h : l[i]? = some a) :
    (l.set i b).countP p + (if p a then 1 else 0) = l.countP p + (if p b then 1 else 0) := by
  induction l generalizing i with
  | nil => simp at h
  | cons x xs ih =>
      cases i with
      | zero =>
          rw [List.getElem?_cons_zero] at h
          obtain rfl := Option.some.inj h
          rw [List.set_cons_zero, List.countP_cons, List.countP_cons]
          omega
      | succ i =>
          rw [List.getElem?_cons_succ] at h
          rw [List.set_cons_succ, List.countP_cons, List.countP_cons]
          have := ih i h
          omega

/-- Counting after a removal. -/
theorem countP_eraseIdx_eq {α : Type} (p : α → Bool) (l : List α) (i : Nat) (a : α)
    (h : l[i]? = some a) :
    (l.eraseIdx i).countP p + (if p a then 1 else 0) = l.countP p := by
  induction l generalizing i with
  | nil => simp at h
  | cons x xs ih =>
      cases i with
      | zero =>
          rw [List.getElem?_cons_zero] at h
          obtain rfl := Option.some.inj h
          rw [List.eraseIdx_cons_zero, List.countP_cons]
      | succ i =>
          rw [List.getElem?_cons_succ] at h
          rw [List.eraseIdx_cons_succ, List.countP_cons, List.countP_cons]
          have := ih i h
          omega

/-- Updating an occupied index stores the new value there. -/
theorem getElem?_set_self {α : Type} (l : List α) (i : Nat) (a b : α)
    (h : l[i]? = some a) : (l.set i b)[i]? = some b := by
  have hlt : i < l.length := by
    by_contra hx
    rw [List.getElem?_eq_none (by omega)] at h
    cases h
  simp [List.getElem?_set, hlt]

/-- Soundness of `findIdx?` with an explicit start offset. -/
theorem findIdx?_some_aux {α : Type} (p : α → Bool) (l : List α) (s j : Nat)
    (h : List.findIdx? p l s = some j) :
    s ≤ j ∧ ∃ a, l[j - s]? = some a ∧ p a = true := by
  induction l generalizing s with
  | nil => simp [List.findIdx?] at h
  | cons x xs ih =>
      rw [List.findIdx?] at h
      by_cases hp : p x
      · rw [if_pos hp] at h
        obtain rfl := Option.some.inj h
        exact ⟨le_refl _, x, by simp, hp⟩
      · rw [if_neg hp] at h
        obtain ⟨hs, a, ha, hpa⟩ := ih (s + 1) h
        refine ⟨by omega, a, ?_, hpa⟩
        have hj : j - s = (j - (s + 1)) + 1 := by omega
        rw [hj, List.getElem?_cons_succ]
        exact ha

/-- A found occupant really is an equipped item of that slot. -/
theorem get_equipped_in_slot_some (slot : Slot) (inv : List Object) (j : Nat)
    (h : get_equipped_in_slot slot inv = some j) :
    ∃ o, inv[j]? = some o ∧ equippedInSlotB slot o = true := by
  obtain ⟨-, a, ha, hpa⟩ := findIdx?_some_aux (equippedInSlotB slot) inv 0 j h
  exact ⟨a, by simpa using ha, hpa⟩

/-- No occupant found means no inventory entry occupies the slot. -/
theorem get_equipped_in_slot_none (slot : Slot) (inv : List Object)
    (h : get_equipped_in_slot slot inv = none) :
    ∀ o ∈ inv, equippedInSlotB slot o = false :=
  List.findIdx?_eq_none_iff.mp h

/-- The last element of a list is a member. -/
theorem mem_of_getLast? {α : Type} {l : List α} {a : α} (h : l.getLast? = some a) :
    a ∈ l := by
  induction l with
  | nil => cases h
  | cons x xs ih =>
      cases xs with
      | nil =>
          rw [List.getLast?_singleton] at h
          obtain rfl := Option.some.inj h
          exact List.mem_singleton_self x
      | cons y ys =>
          rw [List.getLast?_cons_cons] at h
          exact List.mem_cons_of_mem x (ih h)

/-- `swap_remove` only rearranges: every survivor was in the list. -/
theorem swapRemove_subset (l : List Object) (i : Nat) :
    ∀ a ∈ swapRemove l i, a ∈ l := by
  intro a ha
  unfold swapRemove at ha
  by_cases hlt : i < l.length
  · rw [if_pos hlt] at ha
    cases hl : l.getLast? with
    | none =>
        rw [hl] at ha
        exact ha
    | some last =>
        rw [hl] at ha
        have ha2 := (List.dropLast_sublist _).subset ha
        rcases List.mem_or_eq_of_mem_set ha2 with h | rfl
        · exact h
        · exact mem_of_getLast? hl
  · rw [if_neg hlt] at ha
    exact ha

/-- Dequipping at any index never increases a slot count. -/
theorem countP_modify_dequip_le (inv : List Object) (i : Nat) (log : Messages)
    (slot : Slot) :
    (modifyInv inv i Object.dequip log).1.countP (equippedInSlotB slot)
      ≤ inv.countP (equippedInSlotB slot) := by
  unfold modifyInv
  cases h0 : inv[i]? with
  | none => exact le_refl _
  | some o =>
      simp only
      have hc := countP_set_eq (equippedInSlotB slot) inv i o (o.dequip log).1 h0
      by_cases hpn : equippedInSlotB slot (o.dequip log).1
      · have hpo := equippedInSlotB_dequip_mono slot o log hpn
        rw [hpo, hpn] at hc
        omega
      · rw [Bool.not_eq_true] at hpn
        rw [hpn] at hc
        by_cases hpo : equippedInSlotB slot o <;>
          [rw [hpo] at hc; rw [Bool.not_eq_true] at hpo] <;>
          [skip; rw [hpo] at hc] <;> simp at hc <;> omega

/-- A successful dequip on an occupant of `slot` lowers that slot's count
by one. -/
theorem countP_modify_dequip_success (inv : List Object) (i : Nat) (log : Messages)
    (slot : Slot) (o : Object)
    (h0 : inv[i]? = some o) (hpo : equippedInSlotB slot o = true)
    (hitem : o.item.isSome = true) :
    (modifyInv inv i Object.dequip log).1.countP (equippedInSlotB slot) + 1
      = inv.countP (equippedInSlotB slot) := by
  obtain ⟨e, he, heq, hslot⟩ := (equippedInSlotB_iff slot o).mp hpo
  have hres := dequip_fst_success o log e hitem he
  have hc := countP_set_eq (equippedInSlotB slot) inv i o (o.dequip log).1 h0
  have hpn : equippedInSlotB slot (o.dequip log).1 = false := by
    rw [hres]
    simp [equippedInSlotB]
  rw [hpo, hpn] at hc
  simp at hc
  unfold modifyInv
  rw [h0]
  simp only
  omega

/-- An equip of an unequipped equipment item raises exactly its own slot's
count by one. -/
theorem countP_modify_equip (inv : List Object) (i : Nat) (log : Messages)
    (s : Slot) (o : Object) (e : Equipment)
    (h0 : inv[i]? = some o) (he : o.equipment = some e)
    (hitem : o.item.isSome = true) (heq : e.equipped = false) :
    (modifyInv inv i Object.equip log).1.countP (equippedInSlotB s)
      = inv.countP (equippedInSlotB s) + (if e.slot = s then 1 else 0) := by
  have hres := equip_fst_success o log e hitem he
  have hc := countP_set_eq (equippedInSlotB s) inv i o (o.equip log).1 h0
  have hpo : equippedInSlotB s o = false := by
    unfold equippedInSlotB
    rw [he]
    simp [heq]
  have hpn : equippedInSlotB s (o.equip log).1 = decide (e.slot = s) := by
    rw [hres]
    simp [equippedInSlotB]
  rw [hpo, hpn] at hc
  simp at hc
  unfold modifyInv
  rw [h0]
  simp only
  by_cases hs : e.slot = s
  · rw [if_pos hs]
    rw [if_pos hs] at hc
    omega
  · rw [if_neg hs]
    rw [if_neg hs] at hc
    omega

/-- In-place equipment toggles keep the equipment-implies-item property. -/
theorem modify_preserves_ehi (inv : List Object) (i : Nat) (log : Messages)
    (f : Object → Messages → Object × Messages)
    (hpf : ∀ (o : Object) (lg : Messages),
      ((f o lg).1.item = o.item) ∧ ((f o lg).1.equipment.isSome = o.equipment.isSome))
    (hehi : ∀ o ∈ inv, o.equipment.isSome → o.item.isSome) :
    ∀ o ∈ (modifyInv inv i f log).1, o.equipment.isSome → o.item.isSome := by
  unfold modifyInv
  cases h0 : inv[i]? with
  | none => exact hehi
  | some a =>
      simp only
      intro o ho hsome
      rcases List.mem_or_eq_of_mem_set ho with hmem | rfl
      · exact hehi o hmem hsome
      · have hmem := List.getElem?_mem h0
        rw [(hpf a log).1]
        rw [(hpf a log).2] at hsome
        exact hehi a hmem hsome

/-- `toggle_equipment` preserves the slot invariant and the
equipment-implies-item property: a toggle on an equipped item only
dequips; a toggle on an unequipped item first dequips the slot's occupant
(found against the original inventory) and then equips, leaving the slot
with exactly one equipped item. -/
theorem toggle_preserves (inv : List Object) (log : Messages) (i : Nat)
    (hinv : SlotInvariant inv)
    (hehi : ∀ o ∈ inv, o.equipment.isSome → o.item.isSome) :
    SlotInvariant (toggle_equipment i inv log).1 ∧
    (∀ o ∈ (toggle_equipment i inv log).1, o.equipment.isSome → o.item.isSome) := by
  unfold toggle_equipment
  cases h0 : inv[i]? with
  | none => exact ⟨hinv, hehi⟩
  | some it =>
      dsimp only
      cases he : it.equipment with
      | none => exact ⟨hinv, hehi⟩
      | some e =>
          dsimp only
          have hit_mem := List.getElem?_mem h0
          have hit_item : it.item.isSome = true := hehi it hit_mem (by rw [he]; rfl)
          cases hj : get_equipped_in_slot e.slot inv with
          | some j =>
              dsimp only
              obtain ⟨oj, hoj, hpoj⟩ := get_equipped_in_slot_some e.slot inv j hj
              have hoj_mem := List.getElem?_mem hoj
              have hoj_item : oj.item.isSome = true := by
                obtain ⟨e', he', -, -⟩ := (equippedInSlotB_iff e.slot oj).mp hpoj
                exact hehi oj hoj_mem (by rw [he']; rfl)
              by_cases heq : e.equipped
              · -- the toggled item is equipped: both stages only dequip
                simp only [heq, if_true]
                constructor
                · intro s
                  calc (modifyInv (modifyInv inv j Object.dequip log).1 i Object.dequip
                          (modifyInv inv j Object.dequip log).2).1.countP (equippedInSlotB s)
                      ≤ (modifyInv inv j Object.dequip log).1.countP (equippedInSlotB s) :=
                        countP_modify_dequip_le _ i _ s
                    _ ≤ inv.countP (equippedInSlotB s) := countP_modify_dequip_le _ j _ s
                    _ ≤ 1 := hinv s
                · exact modify_preserves_ehi _ i _ Object.dequip dequip_preserves_flags
                    (modify_preserves_ehi _ j _ Object.dequip dequip_preserves_flags hehi)
              · -- the toggled item is unequipped: dequip the occupant, then equip it
                have heqf : e.equipped = false := by
                  rw [Bool.not_eq_true] at heq
                  exact heq
                simp only [heqf, Bool.false_eq_true, if_false]
                have hij : j ≠ i := by
                  intro hji
                  rw [hji, h0] at hoj
                  obtain rfl := Option.some.inj hoj
                  obtain ⟨e', he', heq', -⟩ := (equippedInSlotB_iff e.slot it).mp hpoj
                  rw [he] at he'
                  obtain rfl := Option.some.inj he'
                  rw [heqf] at heq'
                  cases heq'
                have hstage_i : (modifyInv inv j Object.dequip log).1[i]? = some it := by
                  unfold modifyInv
                  rw [hoj]
                  simp only
                  rw [List.getElem?_set_ne hij]
                  exact h0
                have hone : inv.countP (equippedInSlotB e.slot) = 1 := by
                  have hge : 0 < inv.countP (equippedInSlotB e.slot) :=
                    List.countP_pos_iff.mpr ⟨oj, hoj_mem, hpoj⟩
                  have := hinv e.slot
                  omega
                have hzero : (modifyInv inv j Object.dequip log).1.countP
                    (equippedInSlotB e.slot) = 0 := by
                  have := countP_modify_dequip_success inv j log e.slot oj hoj hpoj hoj_item
                  omega
                constructor
                · intro s
                  rw [countP_modify_equip (modifyInv inv j Object.dequip log).1 i
                    (modifyInv inv j Object.dequip log).2 s it e hstage_i he hit_item heqf]
                  by_cases hs : e.slot = s
                  · rw [if_pos hs, ← hs, hzero]
                  · rw [if_neg hs]
                    have h1 : (modifyInv inv j Object.dequip log).1.countP (equippedInSlotB s)
                        ≤ inv.countP (equippedInSlotB s) := countP_modify_dequip_le _ j _ s
                    have := hinv s
                    omega
                · exact modify_preserves_ehi _ i _ Object.equip equip_preserves_flags
                    (modify_preserves_ehi _ j _ Object.dequip dequip_preserves_flags hehi)
          | none =>
              dsimp only
              by_cases heq : e.equipped
              · simp only [heq, if_true]
                constructor
                · intro s
                  calc (modifyInv inv i Object.dequip log).1.countP (equippedInSlotB s)
                      ≤ inv.countP (equippedInSlotB s) := countP_modify_dequip_le _ i _ s
                    _ ≤ 1 := hinv s
                · exact modify_preserves_ehi _ i _ Object.dequip dequip_preserves_flags hehi
              · have heqf : e.equipped = false := by
                  rw [Bool.not_eq_true] at heq
                  exact heq
                simp only [heqf, Bool.false_eq_true, if_false]
                have hzero : inv.countP (equippedInSlotB e.slot) = 0 :=
                  List.countP_eq_zero.mpr (by
                    intro a ha
                    simp [get_equipped_in_slot_none e.slot inv hj a ha])
                constructor
                · intro s
                  rw [countP_modify_equip inv i log s it e h0 he hit_item heqf]
                  by_cases hs : e.slot = s
                  · rw [if_pos hs, ← hs, hzero]
                  · rw [if_neg hs]
                    have := hinv s
                    omega
                · exact modify_preserves_ehi _ i _ Object.equip equip_preserves_flags hehi

/-- `pick_item_up` (with the `handle_keys` item guard) preserves the
inductive invariant: the picked object arrives unequipped, so pushing it
changes no slot count, and the auto-equip fires only when the slot has no
equipped occupant. -/
theorem pick_preserves (s : WorldInv) (gid : Nat) (hg : GoodWorld s) :
    GoodWorld (applyOp s (InvOp.pickUp gid)) := by
  obtain ⟨hinv, hground, hehi⟩ := hg
  unfold applyOp GoodWorld
  dsimp only
  cases hgo : s.objects[gid]? with
  | none => exact ⟨hinv, hground, hehi⟩
  | some o =>
      dsimp only
      by_cases hio : o.item.isSome
      · simp only [hio, if_true]
        unfold pick_item_up
        by_cases hfull : 26 ≤ s.inventory.length
        · simp only [if_pos hfull]
          exact ⟨hinv, hground, hehi⟩
        · simp only [if_neg hfull]
          rw [hgo]
          dsimp only
          have hpo_false : isEquippedB o = false := hground o (List.getElem?_mem hgo)
          have hcount_app : ∀ sl : Slot,
              (s.inventory ++ [o]).countP (equippedInSlotB sl)
                = s.inventory.countP (equippedInSlotB sl) := by
            intro sl
            rw [List.countP_append, List.countP_cons, List.countP_nil,
              equippedInSlotB_of_not_equipped sl o hpo_false]
            simp
          have hehi1 : ∀ x ∈ s.inventory ++ [o], x.equipment.isSome → x.item.isSome := by
            intro x hx
            rcases List.mem_append.mp hx with hx | hx
            · exact hehi x hx
            · rw [List.mem_singleton.mp hx]
              intro _
              exact hio
          have hground2 : ∀ a ∈ swapRemove s.objects gid, isEquippedB a = false :=
            fun a ha => hground a (swapRemove_subset s.objects gid a ha)
          cases hsl : o.equipment.map Equipment.slot with
          | none =>
              dsimp only
              exact ⟨fun sl => by rw [hcount_app sl]; exact hinv sl, hground2, hehi1⟩
          | some slot0 =>
              dsimp only
              obtain ⟨e0, he0, hslot0⟩ := Option.map_eq_some'.mp hsl
              by_cases hfind : (get_equipped_in_slot slot0 (s.inventory ++ [o])).isNone
              · simp only [hfind, if_true]
                have hidx : (s.inventory ++ [o])[s.inventory.length]? = some o := by
                  rw [List.getElem?_append_right (le_refl _)]
                  simp
                have heq0 : e0.equipped = false := by
                  unfold isEquippedB at hpo_false
                  rw [he0] at hpo_false
                  simpa using hpo_false
                have hzero : (s.inventory ++ [o]).countP (equippedInSlotB slot0) = 0 := by
                  apply List.countP_eq_zero.mpr
                  intro a ha
                  have := get_equipped_in_slot_none slot0 (s.inventory ++ [o])
                    (Option.isNone_iff_eq_none.mp hfind) a ha
                  simp [this]
                refine ⟨?_, hground2, ?_⟩
                · intro sl
                  rw [countP_modify_equip (s.inventory ++ [o]) s.inventory.length _ sl o e0
                    hidx he0 hio heq0]
                  by_cases hs : e0.slot = sl
                  · rw [if_pos hs, ← hs, hslot0] at *
                    rw [hzero]
                  · rw [if_neg hs, hcount_app sl]
                    have := hinv sl
                    omega
                · exact modify_preserves_ehi _ s.inventory.length _ Object.equip
                    equip_preserves_flags hehi1
              · have hfind2 : (get_equipped_in_slot slot0 (s.inventory ++ [o])).isNone = false := by
                  rw [Bool.not_eq_true] at hfind
                  exact hfind
                simp only [hfind2, Bool.false_eq_true, if_false]
                exact ⟨fun sl => by rw [hcount_app sl]; exact hinv sl, hground2, hehi1⟩
      · have hio2 : o.item.isSome = false := by
          rw [Bool.not_eq_true] at hio
          exact hio
        simp only [hio2, Bool.false_eq_true, if_false]
        exact ⟨hinv, hground, hehi⟩

/-- `drop_item` preserves the inductive invariant: the removed entry only
lowers slot counts, and the dropped object reaches the map unequipped
(drop force-dequips equipment, and inventory equipment always has an
item, so the dequip succeeds). -/
theorem drop_preserves (s : WorldInv) (i : Nat) (hg : GoodWorld s) :
    GoodWorld (drop_item i s) := by
  obtain ⟨hinv, hground, hehi⟩ := hg
  unfold drop_item GoodWorld
  cases hit : s.inventory[i]? with
  | none => exact ⟨hinv, hground, hehi⟩
  | some item =>
      dsimp only
      have hmem := List.getElem?_mem hit
      have hdropped : isEquippedB (if item.equipment.isSome then item.dequip s.log
          else (item, s.log)).1 = false := by
        by_cases heqp : item.equipment.isSome
        · simp only [heqp, if_true]
          obtain ⟨e, he⟩ := Option.isSome_iff_exists.mp heqp
          rw [dequip_fst_success item s.log e (hehi item hmem heqp) he]
          simp [isEquippedB]
        · have heqp2 : item.equipment.isSome = false := by
            rw [Bool.not_eq_true] at heqp
            exact heqp
          simp only [heqp2, Bool.false_eq_true, if_false]
          unfold isEquippedB
          cases hx : item.equipment with
          | none => rfl
          | some e => exact absurd (by rw [hx]; rfl) heqp
      refine ⟨?_, ?_, ?_⟩
      · intro sl
        have hc := countP_eraseIdx_eq (equippedInSlotB sl) s.inventory i item hit
        have h1 := hinv sl
        by_cases hp : equippedInSlotB sl item
        · rw [hp] at hc
          simp at hc
          omega
        · rw [Bool.not_eq_true] at hp
          rw [hp] at hc
          simp at hc
          omega
      · intro a ha
        rcases List.mem_append.mp ha with ha | ha
        · exact hground a ha
        · rw [List.mem_singleton.mp ha]
          exact hdropped
      · intro a ha
        exact hehi a ((List.eraseIdx_sublist s.inventory i).subset ha)

/-- Every inventory-manager operation preserves the inductive invariant. -/
theorem applyOp_preserves (s : WorldInv) (op : InvOp) (hg : GoodWorld s) :
    GoodWorld (applyOp s op) := by
  cases op with
  | useToggle i =>
      obtain ⟨hinv, hground, hehi⟩ := hg
      have h := toggle_preserves s.inventory s.log i hinv hehi
      exact ⟨h.1, hground, h.2⟩
  | dequipItem i =>
      obtain ⟨hinv, hground, hehi⟩ := hg
      refine ⟨?_, hground,
        modify_preserves_ehi _ i _ Object.dequip dequip_preserves_flags hehi⟩
      intro sl
      exact le_trans (countP_modify_dequip_le s.inventory i s.log sl) (hinv sl)
  | pickUp gid => exact pick_preserves s gid hg
  | dropIt i => exact drop_preserves s i hg

/-- The invariant is inductive over arbitrary operation sequences. -/
theorem applyOps_preserves (ops : List InvOp) (s : WorldInv) (hg : GoodWorld s) :
    GoodWorld (applyOps ops s) := by
  induction ops generalizing s with
  | nil => exact hg
  | cons op rest ih => exact ih _ (applyOp_preserves s op hg)

/-- C8: starting from a state satisfying the reachable-state invariant
(at most one equipped inventory item per slot, no equipped item on the
map, inventory equipment is always item-bearing), any sequence of
equip-toggle, dequip, pick-up and drop operations keeps at most one
equipped inventory item in every slot; and a toggle that equips an
unequipped item into an occupied slot dequips the occupant first
(auto-swap). -/
theorem C8_equip_slot_invariant (s : WorldInv) (ops : List InvOp)
    (hgood : GoodWorld s) :
    SlotInvariant (applyOps ops s).inventory ∧
    (∀ (i j : Nat) (it : Object) (e : Equipment),
      s.inventory[i]? = some it → it.equipment = some e → e.equipped = false →
      get_equipped_in_slot e.slot s.inventory = some j →
      ∃ oj, ((toggle_equipment i s.inventory s.log).1)[j]? = some oj ∧
        isEquippedB oj = false) := by
  constructor
  · exact (applyOps_preserves ops s hgood).1
  · intro i j it e h0 he heqf hj
    obtain ⟨hinv, hground, hehi⟩ := hgood
    obtain ⟨oj, hoj, hpoj⟩ := get_equipped_in_slot_some e.slot s.inventory j hj
    have hoj_item : oj.item.isSome = true := by
      obtain ⟨e', he', -, -⟩ := (equippedInSlotB_iff e.slot oj).mp hpoj
      exact hehi oj (List.getElem?_mem hoj) (by rw [he']; rfl)
    obtain ⟨e2, he2, -, -⟩ := (equippedInSlotB_iff e.slot oj).mp hpoj
    have hij : j ≠ i := by
      intro hji
      rw [hji, h0] at hoj
      obtain rfl := Option.some.inj hoj
      obtain ⟨e', he', heq', -⟩ := (equippedInSlotB_iff e.slot it).mp hpoj
      rw [he] at he'
      obtain rfl := Option.some.inj he'
      rw [heqf] at heq'
      cases heq'
    unfold toggle_equipment
    rw [h0]
    dsimp only
    rw [he]
    dsimp only
    rw [hj]
    dsimp only
    rw [heqf]
    simp only [Bool.false_eq_true, if_false]
    set st1 := modifyInv s.inventory j Object.dequip s.log with hst1
    have hstage_j : st1.1[j]? = some (oj.dequip s.log).1 := by
      rw [hst1]
      unfold modifyInv
      rw [hoj]
      dsimp only
      exact getElem?_set_self s.inventory j oj (oj.dequip s.log).1 hoj
    refine ⟨(oj.dequip s.log).1, ?_, ?_⟩
    · unfold modifyInv
      cases hsi : st1.1[i]? with
      | none => exact hstage_j
      | some b =>
          dsimp only
          rw [List.getElem?_set_ne (Ne.symm hij)]
          exact hstage_j
    · rw [dequip_fst_success oj s.log e2 hoj_item he2]
      simp [isEquippedB]

/-- The starting dagger of `new_game` (lines 1257-1266): equipped in the
left hand. -/
def daggerInv : Object :=
  { x := 0, y := 0, char := '-', color := colors.WHITE, name := "dagger",
    blocks := false, alive := false, fighter := none, ai := none,
    item := some Item.Sword, always_visible := false, level := 1,
    equipment := some { slot := .LeftHand, equipped := true, power_bonus := 2,
                        defense_bonus := 0, max_hp_bonus := 0 } }

/-- An unequipped shield in the inventory, competing for the left hand. -/
def shieldInv : Object :=
  { x := 0, y := 0, char := '[', color := colors.WHITE, name := "shield",
    blocks := false, alive := false, fighter := none, ai := none,
    item := some Item.Shield, always_visible := false, level := 1,
    equipment := some { slot := .LeftHand, equipped := false, power_bonus := 0,
                        defense_bonus := 1, max_hp_bonus := 0 } }

/-- A sword lying on the map, unequipped (as `place_objects` spawns it). -/
def swordGround : Object :=
  { x := 3, y := 4, char := '/', color := colors.WHITE, name := "sword",
    blocks := false, alive := false, fighter := none, ai := none,
    item := some Item.Sword, always_visible := false, level := 1,
    equipment := some { slot := .RightHand, equipped := false, power_bonus := 3,
                        defense_bonus := 0, max_hp_bonus := 0 } }

/-- A concrete world for the C8 witness. -/
def w0 : WorldInv :=
  { objects := [swordGround], inventory := [daggerInv, shieldInv], log := [] }

/-- A concrete operation sequence: pick up (and auto-equip) the sword,
swap the shield in for the dagger, drop the dagger. -/
def ops0 : List InvOp := [.pickUp 0, .useToggle 1, .dropIt 0]

/-- Witness for `C8_equip_slot_invariant` at `w0` and `ops0`; the toggle
conclusion is instantiated with the shield (index 1) displacing the
equipped dagger (index 0) from the left hand. -/
theorem C8_equip_slot_invariant_witness :
    SlotInvariant (applyOps ops0 w0).inventory ∧
    (∃ oj, ((toggle_equipment 1 w0.inventory w0.log).1)[0]? = some oj ∧
      isEquippedB oj = false) := by
  have h := C8_equip_slot_invariant w0 ops0
    (by
      refine ⟨?_, ?_, ?_⟩
      · intro slot
        cases slot <;> decide
      · decide
      · decide)
  exact ⟨h.1, h.2 1 0 shieldInv
    { slot := .LeftHand, equipped := false, power_bonus := 0,
      defense_bonus := 1, max_hp_bonus := 0 } (by decide) rfl rfl (by decide)⟩

/-- JSON value tree — the target of the derived `rustc_serialize::json`
encoding used by `save_game`/`load_game` (`json::encode(&(objects, game))`,
`json::decode::<(Vec<Object>, Game)>`).  The string layer (printing and
parsing of this tree) belongs to the library and is not modelled; the
derived encoding maps structs to objects in field order, unit enum
variants to strings, data-carrying variants to
`{"variant": …, "fields": […]}`, `Option` to null-or-value, and
tuples/vectors to arrays. -/
inductive Json where
  | jnull
  | jbool (b : Bool)
  | jnum (n : Int)
  | jstr (s : String)
  | jarr (items : List Json)
  | jobj (fields : List (String × Json))

/-- Encoding of `Color { r, g, b }` (u8 fields). -/
def encodeColor (c : Color) : Json :=
  .jobj [("r", .jnum (c.r : Int)), ("g", .jnum (c.g : Int)), ("b", .jnum (c.b : Int))]

/-- Decoder for `Color`. -/
def decodeColor : Json → Option Color
  | .jobj [("r", .jnum r), ("g", .jnum g), ("b", .jnum b)] =>
      some { r := r.toNat, g := g.toNat, b := b.toNat }
  | _ => none

/-- A `char` is encoded as a one-character JSON string. -/
def encodeChar (c : Char) : Json := .jstr ⟨[c]⟩

/-- Decoder for `char`. -/
def decodeChar : Json → Option Char
  | .jstr s =>
      match s.data with
      | [c] => some c
      | _ => none
  | _ => none

/-- Unit-variant encoding of `DeathCallback`. -/
def encodeDeathCallback : DeathCallback → Json
  | .Player => .jstr "Player"
  | .Monster => .jstr "Monster"

/-- Decoder for `DeathCallback`. -/
def decodeDeathCallback : Json → Option DeathCallback
  | .jstr "Player" => some .Player
  | .jstr "Monster" => some .Monster
  | _ => none

/-- Unit-variant encoding of `Slot`. -/
def encodeSlot : Slot → Json
  | .LeftHand => .jstr "LeftHand"
  | .RightHand => .jstr "RightHand"
  | .Head => .jstr "Head"

/-- Decoder for `Slot`. -/
def decodeSlot : Json → Option Slot
  | .jstr "LeftHand" => some .LeftHand
  | .jstr "RightHand" => some .RightHand
  | .jstr "Head" => some .Head
  | _ => none

/-- Unit-variant encoding of `Item`. -/
def encodeItem : Item → Json
  | .Heal => .jstr "Heal"
  | .Lightning => .jstr "Lightning"
  | .Confuse => .jstr "Confuse"
  | .Fireball => .jstr "Fireball"
  | .Sword => .jstr "Sword"
  | .Shield => .jstr "Shield"

/-- Decoder for `Item`. -/
def decodeItem : Json → Option Item
  | .jstr "Heal" => some .Heal
  | .jstr "Lightning" => some .Lightning
  | .jstr "Confuse" => some .Confuse
  | .jstr "Fireball" => some .Fireball
  | .jstr "Sword" => some .Sword
  | .jstr "Shield" => some .Shield
  | _ => none

/-- Struct encoding of `Fighter`. -/
def encodeFighter (f : Fighter) : Json :=
  .jobj [("base_max_hp", .jnum f.base_max_hp), ("hp", .jnum f.hp),
         ("base_defense", .jnum f.base_defense), ("base_power", .jnum f.base_power),
         ("on_death", encodeDeathCallback f.on_death), ("xp", .jnum f.xp)]

/-- Decoder for `Fighter`. -/
def decodeFighter : Json → Option Fighter
  | .jobj [("base_max_hp", .jnum a), ("hp", .jnum b), ("base_defense", .jnum c),
           ("base_power", .jnum d), ("on_death", jd), ("xp", .jnum e)] =>
      (decodeDeathCallback jd).map (fun on_death =>
        { base_max_hp := a, hp := b, base_defense := c, base_power := d,
          on_death := on_death, xp := e })
  | _ => none

/-- Struct encoding of `Equipment`. -/
def encodeEquipment (e : Equipment) : Json :=
  .jobj [("slot", encodeSlot e.slot), ("equipped", .jbool e.equipped),
         ("power_bonus", .jnum e.power_bonus), ("defense_bonus", .jnum e.defense_bonus),
         ("max_hp_bonus", .jnum e.max_hp_bonus)]

/-- Decoder for `Equipment`. -/
def decodeEquipment : Json → Option Equipment
  | .jobj [("slot", js), ("equipped", .jbool eq0), ("power_bonus", .jnum p),
           ("defense_bonus", .jnum d), ("max_hp_bonus", .jnum m)] =>
      (decodeSlot js).map (fun slot =>
        { slot := slot, equipped := eq0, power_bonus := p, defense_bonus := d,
          max_hp_bonus := m })
  | _ => none

/-- Variant encoding of the recursive `Ai`. -/
def encodeAi : Ai → Json
  | .Basic => .jstr "Basic"
  | .Confused previous_ai num_turns =>
      .jobj [("variant", .jstr "Confused"),
             ("fields", .jarr [encodeAi previous_ai, .jnum num_turns])]

/-- Decoder for `Ai`. -/
def decodeAi : Json → Option Ai
  | .jstr "Basic" => some .Basic
  | .jobj [("variant", .jstr "Confused"), ("fields", .jarr [jprev, .jnum n])] =>
      (decodeAi jprev).map (fun previous_ai => .Confused previous_ai n)
  | _ => none

/-- Struct encoding of `Tile`. -/
def encodeTile (t : Tile) : Json :=
  .jobj [("blocked", .jbool t.blocked), ("block_sight", .jbool t.block_sight),
         ("explored", .jbool t.explored)]

/-- Decoder for `Tile`. -/
def decodeTile : Json → Option Tile
  | .jobj [("blocked", .jbool b), ("block_sight", .jbool s), ("explored", .jbool e)] =>
      some { blocked := b, block_sight := s, explored := e }
  | _ => none

/-- `Option` encoding: null or the value. -/
def encodeOpt {α : Type} (enc : α → Json) : Option α → Json
  | none => .jnull
  | some a => enc a

/-- `Option` decoder. -/
def decodeOpt {α : Type} (dec : Json → Option α) : Json → Option (Option α)
  | .jnull => some none
  | j => (dec j).map some

/-- Vector encoding: array of element encodings. -/
def encodeList {α : Type} (enc : α → Json) (l : List α) : Json :=
  .jarr (l.map enc)

/-- Vector decoder. -/
def decodeList {α : Type} (dec : Json → Option α) : Json → Option (List α)
  | .jarr items => items.mapM dec
  | _ => none

/-- Tuple encoding of one log message `(String, Color)`. -/
def encodeMsg (m : String × Color) : Json :=
  .jarr [.jstr m.1, encodeColor m.2]

/-- Decoder for one log message. -/
def decodeMsg : Json → Option (String × Color)
  | .jarr [.jstr s, jc] => (decodeColor jc).map (fun c => (s, c))
  | _ => none

/-- Struct encoding of `Object` in declaration order. -/
def encodeObject (o : Object) : Json :=
  .jobj [("x", .jnum o.x), ("y", .jnum o.y), ("char", encodeChar o.char),
         ("color", encodeColor o.color), ("name", .jstr o.name),
         ("blocks", .jbool o.blocks), ("alive", .jbool o.alive),
         ("fighter", encodeOpt encodeFighter o.fighter),
         ("ai", encodeOpt encodeAi o.ai),
         ("item", encodeOpt encodeItem o.item),
         ("always_visible", .jbool o.always_visible),
         ("level", .jnum o.level),
         ("equipment", encodeOpt encodeEquipment o.equipment)]

/-- Decoder for `Object`. -/
def decodeObject : Json → Option Object
  | .jobj [("x", .jnum x), ("y", .jnum y), ("char", jc), ("color", jcol),
           ("name", .jstr name), ("blocks", .jbool blocks), ("alive", .jbool alive),
           ("fighter", jf), ("ai", jai), ("item", jit),
           ("always_visible", .jbool av), ("level", .jnum level),
           ("equipment", jeq)] => do
      let char ← decodeChar jc
      let color ← decodeColor jcol
      let fighter ← decodeOpt decodeFighter jf
      let ai ← decodeOpt decodeAi jai
      let item ← decodeOpt decodeItem jit
      let equipment ← decodeOpt decodeEquipment jeq
      return { x := x, y := y, char := char, color := color, name := name,
               blocks := blocks, alive := alive, fighter := fighter, ai := ai,
               item := item, always_visible := av, level := level,
               equipment := equipment }
  | _ => none

/-- Struct encoding of `Game`. -/
def encodeGame (g : Game) : Json :=
  .jobj [("map", encodeList (encodeList encodeTile) g.map),
         ("log", encodeList encodeMsg g.log),
         ("inventory", encodeList encodeObject g.inventory),
         ("dungeon_level", .jnum (g.dungeon_level : Int))]

/-- Decoder for `Game`. -/
def decodeGame : Json → Option Game
  | .jobj [("map", jmap), ("log", jlog), ("inventory", jinv),
           ("dungeon_level", .jnum d)] => do
      let map ← decodeList (decodeList decodeTile) jmap
      let log ← decodeList decodeMsg jlog
      let inventory ← decodeList decodeObject jinv
      return { map := map, log := log, inventory := inventory,
               dungeon_level := d.toNat }
  | _ => none

/-- Tuple encoding of the save unit `(Vec<Object>, Game)`. -/
def encodeSave (d : SaveData) : Json :=
  .jarr [encodeList encodeObject d.1, encodeGame d.2]

/-- Decoder for the save unit. -/
def decodeSave : Json → Option SaveData
  | .jarr [jobjs, jgame] => do
      let objects ← decodeList decodeObject jobjs
      let game ← decodeGame jgame
      return (objects, game)
  | _ => none

/-- The persistence collaborator's storage, file name → contents. -/
def FileStore := String → Option Json

/-- `save_game` (lines 1385-1390): encode `(objects, game)` as one value
and write it to the fixed well-known file "savegame". -/
def save_game (objects : List Object) (game : Game) (fs : FileStore) : FileStore :=
  fun n => if n = "savegame" then some (encodeSave (objects, game)) else fs n

/-- `load_game` (lines 1328-1334): read "savegame" and decode the same
shape; any missing-file or decode failure is the `none` of the caller's
`Result`. -/
def load_game (fs : FileStore) : Option SaveData :=
  (fs "savegame").bind decodeSave

/-- `Color` round-trips. -/
theorem decodeColor_encodeColor (c : Color) : decodeColor (encodeColor c) = some c := by
  cases c
  simp [encodeColor, decodeColor]

/-- `char` round-trips. -/
theorem decodeChar_encodeChar (c : Char) : decodeChar (encodeChar c) = some c := rfl

/-- `DeathCallback` round-trips. -/
theorem decodeDC_encodeDC (d : DeathCallback) :
    decodeDeathCallback (encodeDeathCallback d) = some d := by
  cases d <;> rfl

/-- `Slot` round-trips. -/
theorem decodeSlot_encodeSlot (s : Slot) : decodeSlot (encodeSlot s) = some s := by
  cases s <;> rfl

/-- `Item` round-trips. -/
theorem decodeItem_encodeItem (i : Item) : decodeItem (encodeItem i) = some i := by
  cases i <;> rfl

/-- `Fighter` round-trips. -/
theorem decodeFighter_encodeFighter (f : Fighter) :
    decodeFighter (encodeFighter f) = some f := by
  cases f
  simp [encodeFighter, decodeFighter, decodeDC_encodeDC]

/-- `Equipment` round-trips. -/
theorem decodeEquipment_encodeEquipment (e : Equipment) :
    decodeEquipment (encodeEquipment e) = some e := by
  cases e
  simp [encodeEquipment, decodeEquipment, decodeSlot_encodeSlot]

/-- `Ai` round-trips. -/
theorem decodeAi_encodeAi (a : Ai) : decodeAi (encodeAi a) = some a := by
  induction a with
  | Basic => rfl
  | Confused previous_ai num_turns ih =>
      simp [encodeAi, decodeAi, ih]

/-- `Tile` round-trips. -/
theorem decodeTile_encodeTile (t : Tile) : decodeTile (encodeTile t) = some t := by
  cases t
  simp [encodeTile, decodeTile]

/-- A message pair round-trips. -/
theorem decodeMsg_encodeMsg (m : String × Color) :
    decodeMsg (encodeMsg m) = some m := by
  cases m
  simp [encodeMsg, decodeMsg, decodeColor_encodeColor]

/-- An option of a null-free encoding round-trips. -/
theorem decodeOpt_encodeOpt {α : Type} (enc : α → Json) (dec : Json → Option α)
    (hrt : ∀ a, dec (enc a) = some a) (hnn : ∀ a, enc a ≠ .jnull) (oa : Option α) :
    decodeOpt dec (encodeOpt enc oa) = some oa := by
  cases oa with
  | none => rfl
  | some a =>
      have hred : decodeOpt dec (enc a) = (dec (enc a)).map some := by
        cases h : enc a with
        | jnull => exact absurd h (hnn a)
        | jbool b => rfl
        | jnum n => rfl
        | jstr s => rfl
        | jarr l => rfl
        | jobj l => rfl
      rw [show encodeOpt enc (some a) = enc a from rfl, hred, hrt a]
      rfl

/-- A list of a round-tripping encoding round-trips. -/
theorem decodeList_encodeList {α : Type} (enc : α → Json) (dec : Json → Option α)
    (hrt : ∀ a, dec (enc a) = some a) (l : List α) :
    decodeList dec (encodeList enc l) = some l := by
  show (l.map enc).mapM dec = some l
  induction l with
  | nil => rfl
  | cons x xs ih =>
      rw [List.map_cons, List.mapM_cons, hrt x, ih]
      rfl

/-- `Fighter` encodings are never null. -/
theorem encodeFighter_ne_null (f : Fighter) : encodeFighter f ≠ .jnull := by
  simp [encodeFighter]

/-- `Ai` encodings are never null. -/
theorem encodeAi_ne_null (a : Ai) : encodeAi a ≠ .jnull := by
  cases a <;> simp [encodeAi]

/-- `Item` encodings are never null. -/
theorem encodeItem_ne_null (i : Item) : encodeItem i ≠ .jnull := by
  cases i <;> simp [encodeItem]

/-- `Equipment` encodings are never null. -/
theorem encodeEquipment_ne_null (e : Equipment) : encodeEquipment e ≠ .jnull := by
  simp [encodeEquipment]

/-- `Object` round-trips. -/
theorem decodeObject_encodeObject (o : Object) :
    decodeObject (encodeObject o) = some o := by
  cases o with
  | mk x y char color name blocks alive fighter ai item av level equipment =>
      show ((decodeChar (encodeChar char)).bind fun char =>
            (decodeColor (encodeColor color)).bind fun color =>
            (decodeOpt decodeFighter (encodeOpt encodeFighter fighter)).bind fun fighter =>
            (decodeOpt decodeAi (encodeOpt encodeAi ai)).bind fun ai =>
            (decodeOpt decodeItem (encodeOpt encodeItem item)).bind fun item =>
            (decodeOpt decodeEquipment (encodeOpt encodeEquipment equipment)).bind
              fun equipment =>
            some (⟨x, y, char, color, name, blocks, alive, fighter, ai, item,
              av, level, equipment⟩ : Object)) =
        some (⟨x, y, char, color, name, blocks, alive, fighter, ai, item,
          av, level, equipment⟩ : Object)
      rw [decodeChar_encodeChar, decodeColor_encodeColor,
        decodeOpt_encodeOpt encodeFighter decodeFighter decodeFighter_encodeFighter
          encodeFighter_ne_null,
        decodeOpt_encodeOpt encodeAi decodeAi decodeAi_encodeAi encodeAi_ne_null,
        decodeOpt_encodeOpt encodeItem decodeItem decodeItem_encodeItem encodeItem_ne_null,
        decodeOpt_encodeOpt encodeEquipment decodeEquipment decodeEquipment_encodeEquipment
          encodeEquipment_ne_null]
      rfl

/-- `Game` round-trips. -/
theorem decodeGame_encodeGame (g : Game) : decodeGame (encodeGame g) = some g := by
  cases g with
  | mk map log inventory dungeon_level =>
      show ((decodeList (decodeList decodeTile)
              (encodeList (encodeList encodeTile) map)).bind fun map =>
            (decodeList decodeMsg (encodeList encodeMsg log)).bind fun log =>
            (decodeList decodeObject (encodeList encodeObject inventory)).bind
              fun inventory =>
            some (⟨map, log, inventory, ((dungeon_level : Int)).toNat⟩ : Game)) =
        some (⟨map, log, inventory, dungeon_level⟩ : Game)
      rw [decodeList_encodeList (encodeList encodeTile) (decodeList decodeTile)
            (decodeList_encodeList encodeTile decodeTile decodeTile_encodeTile),
          decodeList_encodeList encodeMsg decodeMsg decodeMsg_encodeMsg,
          decodeList_encodeList encodeObject decodeObject decodeObject_encodeObject]
      simp

/-- C9: the save/load round trip.  Serializing `(objects, game)` with
`save_game` and deserializing with `load_game` reproduces the entity list
and the game state exactly — every observable field (positions, fighter
stats, inventory contents, tile explored flags, dungeon level) included,
because the decoded value is *equal* to the one saved. -/
theorem C9_save_load_roundtrip (objects : List Object) (game : Game) (fs : FileStore) :
    load_game (save_game objects game fs) = some (objects, game) := by
  show (if "savegame" = "savegame" then some (encodeSave (objects, game))
    else fs "savegame").bind decodeSave = some (objects, game)
  rw [if_pos rfl]
  show ((decodeList decodeObject (encodeList encodeObject objects)).bind fun objects =>
        (decodeGame (encodeGame game)).bind fun game =>
        some (objects, game)) = some (objects, game)
  rw [decodeList_encodeList encodeObject decodeObject decodeObject_encodeObject,
      decodeGame_encodeGame]
  rfl
